import Mathlib

/-!
# matparser: the binary data-element decoder

A shallow embedding of `src/matparser/matparser.cpp`.

* The byte vector `MatFile::data` is a `List Byte`, the `size_t` cursor a `Nat`.
* Every `assert` of the source is a failure of the run; the failure carries the
  error kind that section 7 of the specification gives to that assertion.
* The zlib routine behind `uncompress` is an external library: the pure inflate
  function is a parameter of the model.
* `printf` output of decoded values is kept as a list of `Event`s.
-/

set_option autoImplicit false

namespace MatParser

/-! ## Data model -/

/-- One `uint8_t` of the buffer. -/
abbrev Byte := Fin 256

/-- Reasons for which a run stops without a result.

Each `assert` of the source maps to one of the error kinds of the
specification:
* `OutOfBounds`: `assert(cursor <= data.size())`, `assert(cursor + numberOfBytes <= data.size())`;
* `MisalignedElement`: `assert((cursor % 8) == 0)`;
* `UnexpectedDataType`: `assert(h.dataType == ...)`, `assert(dataTypeSize != 0)`;
* `InvalidLength`: `assert(h.numberOfBytes == ...)`, `assert(h.numberOfBytes % fieldNameLength == 0)`;
* `UnsupportedMatrixClass`: `assert(0)` in the `default:` branch of `ReadMatrix`;
* `DecompressionFailed`: `assert(ret == Z_OK)`;
* `FieldIndexExceeded`: `assert(g_currentField < g_fieldNames.size())`;
* `InflationNotGrowing`: `assert(uncompressedLen > compressedLen)`.

Two more outcomes are not assertions:
* `Fault`: the C++ program reaches a state for which it has no assertion and
  no defined result: a memory access outside the vector that no assertion
  rejects afterwards, a `memcpy` whose source and destination overlap, a
  division by zero, or a `resize` to a negative length;
* `FuelExhausted`: the bound on loop iterations given to the model ran out; it
  says nothing about the program. -/
inductive MatError
  | OutOfBounds
  | MisalignedElement
  | UnexpectedDataType
  | InvalidLength
  | UnsupportedMatrixClass
  | DecompressionFailed
  | FieldIndexExceeded
  | InflationNotGrowing
  | Fault
  | FuelExhausted
deriving DecidableEq, Repr

deriving instance DecidableEq for Except

/-! ### `enum MatDataType` -/

def miINT8 : Nat := 1
def miUINT8 : Nat := 2
def miINT16 : Nat := 3
def miUINT16 : Nat := 4
def miINT32 : Nat := 5
def miUINT32 : Nat := 6
def miSINGLE : Nat := 7
def miDOUBLE : Nat := 9
def miINT64 : Nat := 12
def miUINT64 : Nat := 13
def miMATRIX : Nat := 14
def miCOMPRESSED : Nat := 15
def miUTF8 : Nat := 16
def miUTF16 : Nat := 17
def miUTF32 : Nat := 18

/-- The `switch` of `MatDataTypeToSize`. -/
def MatDataTypeToSize (dataType : Nat) : Nat :=
  if dataType = miINT8 ∨ dataType = miUINT8 then 1
  else if dataType = miINT16 ∨ dataType = miUINT16 then 2
  else if dataType = miINT32 ∨ dataType = miUINT32 then 4
  else if dataType = miSINGLE then 4
  else if dataType = miDOUBLE then 8
  else if dataType = miINT64 ∨ dataType = miUINT64 then 8
  else 0

/-! ### `enum MatMatrixClass` -/

def mxCELL_CLASS : Nat := 1
def mxSTRUCT_CLASS : Nat := 2
def mxOBJECT_CLASS : Nat := 3
def mxCHAR_CLASS : Nat := 4
def mxSPARSE_CLASS : Nat := 5
def mxDOUBLE_CLASS : Nat := 6
def mxSINGLE_CLASS : Nat := 7
def mxINT8_CLASS : Nat := 8
def mxUINT8_CLASS : Nat := 9
def mxINT16_CLASS : Nat := 10
def mxUINT16_CLASS : Nat := 11
def mxINT32_CLASS : Nat := 12
def mxUINT32_CLASS : Nat := 13
def mxINT64_CLASS : Nat := 14
def mxUINT64_CLASS : Nat := 15

/-- The `struct MatDataElementHeader`: `dataType` is a `uint32_t` enum,
`numberOfBytes` a `uint32_t`; `sizeof` is 8. -/
structure MatDataElementHeader where
  dataType : Nat
  numberOfBytes : Nat
deriving DecidableEq, Repr

/-- The value of `sizeof(MatDataElementHeader)`. -/
def sizeofMatDataElementHeader : Nat := 8

/-- The `struct MatArrayFlagsSubelement` under `#pragma pack(1)`: one byte of
class, one byte of flag bits, a `uint16_t` and a `uint32_t`; `sizeof` is 8. -/
structure MatArrayFlagsSubelement where
  matrixClass : Nat
  flags : Nat
  undefined : Nat
  maxNonZero : Nat
deriving DecidableEq, Repr

/-- The value of `sizeof(MatArrayFlagsSubelement)`. -/
def sizeofMatArrayFlagsSubelement : Nat := 8

/-- The value of `sizeof(MatHeader)`: 116 + 8 + 2 + 2 bytes. -/
def sizeofMatHeader : Nat := 128

/-- The private members of `class MatFile`. -/
structure MatFile where
  data : List Byte
  cursor : Nat
deriving DecidableEq, Repr

/-! ## Reading bytes -/

/-- The byte `data[i]` as a number. An index outside the vector reads as 0:
the source reads such a byte only where an assertion on the cursor follows and
stops the run, so that the value is never used. -/
def byteAt (data : List Byte) (i : Nat) : Nat := (data.getD i 0).val

/-- The little-endian number held in the `width` bytes from `pos`: the value of
`*(const T*)&data[pos]` for an unsigned `T` of that width on the little-endian
machines the source is written for. -/
def readLE (data : List Byte) (pos : Nat) : Nat → Nat
  | 0 => 0
  | width + 1 => byteAt data pos + 256 * readLE data (pos + 1) width

/-- The `uint16_t` at `pos`. -/
def u16At (data : List Byte) (pos : Nat) : Nat := readLE data pos 2

/-- The `uint32_t` at `pos`. -/
def u32At (data : List Byte) (pos : Nat) : Nat := readLE data pos 4

/-- The conversion of 32 bits to `int32_t` (two's complement). -/
def toInt32 (v : Nat) : Int :=
  if v % 2 ^ 32 < 2 ^ 31 then (v % 2 ^ 32 : Nat) else (v % 2 ^ 32 : Nat) - 2 ^ 32

/-- The bytes a C string shows under `%s`: those before the first NUL. -/
def cstr (s : List Byte) : List Byte := s.takeWhile (fun b => b != 0)

namespace MatFile

/-- The method `EndOfFile`. -/
def EndOfFile (st : MatFile) : Except MatError Bool :=
  if st.cursor ≤ st.data.length then .ok (st.cursor == st.data.length)
  else .error .OutOfBounds

/-- The method `Skip`. -/
def Skip (st : MatFile) (numberOfBytes : Nat) : Except MatError MatFile :=
  if st.cursor + numberOfBytes ≤ st.data.length then
    .ok { st with cursor := st.cursor + numberOfBytes }
  else .error .OutOfBounds

/-- The method `ReadPrimitive<T>` for an unsigned `T` of `size` bytes: the
value at the cursor, the cursor advanced by `sizeof(T)`, then the assertion. -/
def ReadPrimitive (st : MatFile) (size : Nat) : Except MatError (Nat × MatFile) :=
  let val := readLE st.data st.cursor size
  let cursor := st.cursor + size
  if cursor ≤ st.data.length then .ok (val, { st with cursor := cursor })
  else .error .OutOfBounds

/-- The method `ReadMem`: `count` bytes copied from the cursor, the cursor
advanced by `count`, then the assertion. -/
def ReadMem (st : MatFile) (count : Nat) : Except MatError (List Byte × MatFile) :=
  let buffer := (st.data.drop st.cursor).take count
  let cursor := st.cursor + count
  if cursor ≤ st.data.length then .ok (buffer, { st with cursor := cursor })
  else .error .OutOfBounds

end MatFile

/-! ## zlib -/

/-- The return codes of zlib's `uncompress`; `Z_OK` comes with the bytes
written to the destination. -/
inductive ZResult
  | Z_OK (dest : List Byte)
  | Z_MEM_ERROR
  | Z_BUF_ERROR
  | Z_DATA_ERROR
deriving DecidableEq, Repr

/-- The function `uncompress(dest, &destLen, source, sourceLen)` of zlib, as
its manual describes it, over the pure function `inflate` that gives the
uncompressed bytes of a complete valid zlib stream and `none` for corrupted or
incomplete input: `Z_BUF_ERROR` when the output does not fit in the `destLen`
bytes of the destination, `Z_OK` with the output otherwise. -/
def uncompress (inflate : List Byte → Option (List Byte)) (destLen : Nat)
    (source : List Byte) : ZResult :=
  match inflate source with
  | none => .Z_DATA_ERROR
  | some out => if out.length ≤ destLen then .Z_OK out else .Z_BUF_ERROR

/-! ## `memcpy` and `resize` -/

/-- The call `data.resize(n)` of a byte vector: cut, or filled with zeros. -/
def resize (data : List Byte) (n : Nat) : List Byte :=
  data.take n ++ List.replicate (n - data.length) 0

/-- The call `memcpy(&data[dst], &data[src], len)` inside one vector. Both
regions must lie in the vector and, as the C standard requires of `memcpy`,
must not overlap; otherwise the behaviour is undefined. -/
def memcpyWithin (data : List Byte) (dst src len : Nat) : Except MatError (List Byte) :=
  if len = 0 then .ok data
  else if data.length < src + len ∨ data.length < dst + len then .error .Fault
  else if src < dst + len ∧ dst < src + len then .error .Fault
  else .ok (data.take dst ++ (data.drop src).take len ++ data.drop (dst + len))

/-- The call `memcpy(&data[dst], source.data(), source.size())` from another
vector. -/
def memcpyFrom (data : List Byte) (dst : Nat) (source : List Byte) :
    Except MatError (List Byte) :=
  if source.length = 0 then .ok data
  else if data.length < dst + source.length then .error .Fault
  else .ok (data.take dst ++ source ++ data.drop (dst + source.length))

/-! ## `MatFile::ReadDataElementHeader` -/

namespace MatFile

/-- The statement `cursor = ((cursor + 7) & ~7)`. -/
def alignCursor (cursor : Nat) : Nat := (cursor + 7) - (cursor + 7) % 8

/-- Lines 277 to 288: the cursor is aligned, the second 16-bit word is peeked,
and the header is read as two `uint16_t` or as two `uint32_t`. -/
def readHeaderAtCursor (st : MatFile) : Except MatError (MatDataElementHeader × MatFile) := do
  let st : MatFile := { st with cursor := alignCursor st.cursor }
  if st.cursor % 8 ≠ 0 then throw MatError.MisalignedElement
  if u16At st.data (st.cursor + 2) ≠ 0 then
    let (dataType, st) ← st.ReadPrimitive 2
    let (numberOfBytes, st) ← st.ReadPrimitive 2
    pure (⟨dataType, numberOfBytes⟩, st)
  else
    let (dataType, st) ← st.ReadPrimitive 4
    let (numberOfBytes, st) ← st.ReadPrimitive 4
    pure (⟨dataType, numberOfBytes⟩, st)

/-- Lines 293 to 311: the body of `if (header.dataType == miCOMPRESSED)`.

* `header.numberOfBytes * 20` is a `uint32_t` product.
* `uncompress` reads `numberOfBytes` bytes from `&data[cursor]`; no assertion
  checks that they lie in the vector.
* `cursor -= sizeof(MatDataElementHeader)` wraps when the cursor is below 8 (a
  header of two 16-bit words at offset 0); once the assertion on the lengths
  has passed, the second `memcpy` would then write before the vector, so the
  model stops there.
* With both checks passed `data.size() - cursor - compressedLen` does not wrap,
  and `data.size() - compressedLen + uncompressedLen` has its exact value
  because `uncompressedLen > compressedLen` was asserted. -/
def inflateAndSplice (inflate : List Byte → Option (List Byte)) (st : MatFile)
    (header : MatDataElementHeader) : Except MatError MatFile := do
  let destLen := (header.numberOfBytes * 20) % 2 ^ 32
  if st.data.length < st.cursor + header.numberOfBytes then throw MatError.Fault
  match uncompress inflate destLen ((st.data.drop st.cursor).take header.numberOfBytes) with
  | .Z_OK uncompressed =>
    let uncompressedLen := uncompressed.length
    let compressedLen := sizeofMatDataElementHeader + header.numberOfBytes
    if ¬ (uncompressedLen > compressedLen) then throw MatError.InflationNotGrowing
    if st.cursor < sizeofMatDataElementHeader then throw MatError.Fault
    let cursor := st.cursor - sizeofMatDataElementHeader
    let remainingLen := st.data.length - cursor - compressedLen
    let data := resize st.data (st.data.length + uncompressedLen - compressedLen)
    let data ← memcpyWithin data (cursor + uncompressedLen) (cursor + compressedLen) remainingLen
    let data ← memcpyFrom data cursor uncompressed
    pure { data := data, cursor := cursor }
  | _ => throw MatError.DecompressionFailed

/-- The method `ReadDataElementHeader`: the loop `for (;;)`, with `fuel`
bounding the number of headers read. -/
def ReadDataElementHeader (inflate : List Byte → Option (List Byte)) :
    Nat → MatFile → Except MatError (MatDataElementHeader × MatFile)
  | 0, _ => .error .FuelExhausted
  | fuel + 1, st => do
    let (header, st) ← st.readHeaderAtCursor
    if header.dataType = miCOMPRESSED then
      let st ← st.inflateAndSplice inflate header
      ReadDataElementHeader inflate fuel st
    else
      pure (header, st)

end MatFile

/-! ## The decoder state and what it prints -/

/-- The decoded values the source shows with `printf`, one constructor for each
call that prints a decoded value; a string printed with `%s` is kept as the
bytes before its first NUL. The `VERBOSE` lines of `header.Print()` and
`arrayFlags.Print()` are not recorded. -/
inductive Event
  /-- Line 343: `printf("[%02d]: '%s'\n", i, fieldName.c_str())`. -/
  | listedField (i : Nat) (fieldName : List Byte)
  /-- Line 357: `printf("%s '%s'\n", MatDataTypeToString(header.dataType), charName.c_str())`. -/
  | text (dataType : Nat) (charName : List Byte)
  /-- Line 365: `printf("%s\n", MatDataTypeToString(header.dataType))`. -/
  | numeric (dataType : Nat)
  /-- Line 380: `printf("%s.%s: ", g_arrayName.c_str(), g_fieldNames[g_currentField].c_str())`. -/
  | attributed (arrayName fieldName : List Byte)
  /-- Line 390: `printf("%d", mat.ReadPrimitive<int32_t>())`. -/
  | dimension (extent : Int)
  /-- Line 404: `printf("'%s' ", g_arrayName.c_str())`. -/
  | named (arrayName : List Byte)
deriving DecidableEq, Repr

/-- The whole state of the program: the `MatFile`, the three globals
`g_currentField`, `g_arrayName`, `g_fieldNames`, and the output so far. -/
structure Decoder where
  mat : MatFile
  currentField : Nat
  arrayName : List Byte
  fieldNames : List (List Byte)
  output : List Event
deriving DecidableEq, Repr

/-- The loop of lines 340 to 345: `count` times, `fieldNameLength` bytes are
read into `fieldName`, printed, and pushed at the back of `g_fieldNames`;
`i` is the loop counter. -/
def readFieldNames (fieldNameLength : Nat) : Nat → Nat → Decoder → Except MatError Decoder
  | 0, _, d => .ok d
  | count + 1, i, d => do
    let (fieldName, mat) ← d.mat.ReadMem fieldNameLength
    readFieldNames fieldNameLength count (i + 1)
      { d with mat := mat,
               output := d.output ++ [Event.listedField i (cstr fieldName)],
               fieldNames := d.fieldNames ++ [fieldName] }

/-- The function `ReadMatrixStruct`.

`fieldNameLength` is an `int32_t`: in `numberOfBytes % fieldNameLength` and
`numberOfBytes / fieldNameLength` it is converted to `uint32_t` (the same 32
bits), a zero divisor is undefined, the quotient is stored in an `int32_t`, and
`fieldName.resize(fieldNameLength)` with a negative length does not return. -/
def ReadMatrixStruct (inflate : List Byte → Option (List Byte)) (fuel : Nat)
    (d : Decoder) : Except MatError Decoder := do
  let (fieldNameLengthHeader, mat) ← d.mat.ReadDataElementHeader inflate fuel
  if fieldNameLengthHeader.dataType ≠ miINT32 then throw MatError.UnexpectedDataType
  if fieldNameLengthHeader.numberOfBytes ≠ 4 then throw MatError.InvalidLength
  let (fieldNameLength, mat) ← mat.ReadPrimitive 4
  let (fieldNamesHeader, mat) ← mat.ReadDataElementHeader inflate fuel
  if fieldNamesHeader.dataType ≠ miINT8 then throw MatError.UnexpectedDataType
  if fieldNameLength = 0 then throw MatError.Fault
  if fieldNamesHeader.numberOfBytes % fieldNameLength ≠ 0 then throw MatError.InvalidLength
  let fieldNameCount : Int := toInt32 (fieldNamesHeader.numberOfBytes / fieldNameLength)
  if toInt32 fieldNameLength < 0 then throw MatError.Fault
  let d ← readFieldNames fieldNameLength fieldNameCount.toNat 0 { d with mat := mat }
  pure { d with currentField := 0 }

/-- The function `ReadMatrixChar`. -/
def ReadMatrixChar (inflate : List Byte → Option (List Byte)) (fuel : Nat)
    (d : Decoder) : Except MatError Decoder := do
  let (header, mat) ← d.mat.ReadDataElementHeader inflate fuel
  if header.dataType ≠ miUTF8 then throw MatError.UnexpectedDataType
  let (charName, mat) ← mat.ReadMem header.numberOfBytes
  pure { d with mat := mat, output := d.output ++ [Event.text header.dataType (cstr charName)] }

/-- The function `ReadMatrixDouble`. -/
def ReadMatrixDouble (inflate : List Byte → Option (List Byte)) (fuel : Nat)
    (d : Decoder) : Except MatError Decoder := do
  let (header, mat) ← d.mat.ReadDataElementHeader inflate fuel
  let dataTypeSize := MatDataTypeToSize header.dataType
  if dataTypeSize = 0 then throw MatError.UnexpectedDataType
  let mat ← mat.Skip header.numberOfBytes
  pure { d with mat := mat, output := d.output ++ [Event.numeric header.dataType] }

/-- Lines 371 to 374 of `ReadMatrix`: the array-flags header, its two
assertions, and `ReadBlock<MatArrayFlagsSubelement>`. -/
def readArrayFlags (inflate : List Byte → Option (List Byte)) (fuel : Nat)
    (d : Decoder) : Except MatError (MatArrayFlagsSubelement × Decoder) := do
  let (arrayFlagsHeader, mat) ← d.mat.ReadDataElementHeader inflate fuel
  if arrayFlagsHeader.dataType ≠ miUINT32 then throw MatError.UnexpectedDataType
  if arrayFlagsHeader.numberOfBytes ≠ 2 * 4 then throw MatError.InvalidLength
  let (_, mat') ← mat.ReadPrimitive sizeofMatArrayFlagsSubelement
  let arrayFlags : MatArrayFlagsSubelement :=
    { matrixClass := byteAt mat.data mat.cursor,
      flags := byteAt mat.data (mat.cursor + 1),
      undefined := u16At mat.data (mat.cursor + 2),
      maxNonZero := u32At mat.data (mat.cursor + 4) }
  pure (arrayFlags, { d with mat := mat' })

/-- Lines 377 to 382 of `ReadMatrix`: the matrix is printed under the current
field name, and the field index moves on. -/
def attributeField (d : Decoder) : Except MatError Decoder :=
  if d.fieldNames.isEmpty then .ok d
  else if d.currentField < d.fieldNames.length then
    .ok { d with
          output := d.output ++
            [Event.attributed (cstr d.arrayName) (cstr (d.fieldNames.getD d.currentField []))],
          currentField := d.currentField + 1 }
  else .error .FieldIndexExceeded

/-- The loop of lines 388 to 393: `dimensions` values of type `int32_t` are
read and printed. -/
def readExtents : Nat → Decoder → Except MatError Decoder
  | 0, d => .ok d
  | dimensions + 1, d => do
    let (extent, mat) ← d.mat.ReadPrimitive 4
    readExtents dimensions
      { d with mat := mat, output := d.output ++ [Event.dimension (toInt32 extent)] }

/-- Lines 384 to 395 of `ReadMatrix`: the dimensions subelement. -/
def readDimensions (inflate : List Byte → Option (List Byte)) (fuel : Nat)
    (d : Decoder) : Except MatError Decoder := do
  let (dimensionHeader, mat) ← d.mat.ReadDataElementHeader inflate fuel
  if dimensionHeader.dataType ≠ miINT32 then throw MatError.UnexpectedDataType
  let dimensions := dimensionHeader.numberOfBytes / 4
  readExtents dimensions { d with mat := mat }

/-- Lines 397 to 406 of `ReadMatrix`: the name subelement. -/
def readArrayName (inflate : List Byte → Option (List Byte)) (fuel : Nat)
    (d : Decoder) : Except MatError Decoder := do
  let (arrayNameHeader, mat) ← d.mat.ReadDataElementHeader inflate fuel
  if arrayNameHeader.dataType ≠ miINT8 then throw MatError.UnexpectedDataType
  if arrayNameHeader.numberOfBytes > 0 then
    let (arrayName, mat) ← mat.ReadMem arrayNameHeader.numberOfBytes
    pure { d with mat := mat, arrayName := arrayName,
                  output := d.output ++ [Event.named (cstr arrayName)] }
  else
    pure { d with mat := mat }

/-- Lines 371 to 406 of `ReadMatrix`: everything before the `switch`. -/
def readMatrixPrologue (inflate : List Byte → Option (List Byte)) (fuel : Nat)
    (d : Decoder) : Except MatError (MatArrayFlagsSubelement × Decoder) := do
  let (arrayFlags, d) ← readArrayFlags inflate fuel d
  let d ← attributeField d
  let d ← readDimensions inflate fuel d
  let d ← readArrayName inflate fuel d
  pure (arrayFlags, d)

/-- The function `ReadMatrix`. -/
def ReadMatrix (inflate : List Byte → Option (List Byte)) (fuel : Nat)
    (d : Decoder) : Except MatError Decoder := do
  let (arrayFlags, d) ← readMatrixPrologue inflate fuel d
  if arrayFlags.matrixClass = mxSTRUCT_CLASS then ReadMatrixStruct inflate fuel d
  else if arrayFlags.matrixClass = mxCHAR_CLASS then ReadMatrixChar inflate fuel d
  else if arrayFlags.matrixClass = mxDOUBLE_CLASS then ReadMatrixDouble inflate fuel d
  else throw MatError.UnsupportedMatrixClass

/-- The constructor `MatFile::MatFile` on the bytes of the file: the cursor
starts at 0 and `ReadBlock<MatHeader>()` moves it past the file header. -/
def MatFile.load (bytes : List Byte) : Except MatError MatFile := do
  let (_, mat) ← MatFile.ReadPrimitive { data := bytes, cursor := 0 } sizeofMatHeader
  pure mat

/-- The initial values of the globals: `g_currentField = (size_t)-1`, an empty
name and an empty list. -/
def Decoder.init (mat : MatFile) : Decoder :=
  { mat := mat, currentField := 2 ^ 64 - 1, arrayName := [], fieldNames := [], output := [] }

/-- The loop `while (!mat.EndOfFile())` of `main`; `steps` bounds the number of
top-level elements. -/
def mainLoop (inflate : List Byte → Option (List Byte)) (fuel : Nat) :
    Nat → Decoder → Except MatError Decoder
  | 0, _ => .error .FuelExhausted
  | steps + 1, d => do
    if ← d.mat.EndOfFile then pure d
    else
      let (element, mat) ← d.mat.ReadDataElementHeader inflate fuel
      let d ← (if element.dataType = miMATRIX then ReadMatrix inflate fuel { d with mat := mat }
               else do
                 let mat ← mat.Skip element.numberOfBytes
                 pure { d with mat := mat })
      mainLoop inflate fuel steps d

/-- The function `main` on the bytes of the file. -/
def main (inflate : List Byte → Option (List Byte)) (fuel steps : Nat)
    (bytes : List Byte) : Except MatError Decoder := do
  let mat ← MatFile.load bytes
  mainLoop inflate fuel steps (Decoder.init mat)

/-! ## Concrete inputs -/

/-- A file header of 128 bytes: the text `MATLAB 5.0 MAT-file` filled with
spaces to 116 bytes, a zero subsystem offset, version `0x0100`, and the
endian indicator `IM`. -/
def sampleFileHeader : List Byte :=
  [77, 65, 84, 76, 65, 66, 32, 53, 46, 48, 32, 77, 65, 84, 45, 102, 105, 108, 101] ++
  List.replicate 97 32 ++ [0, 0, 0, 0, 0, 0, 0, 0, 0, 1, 73, 77]

/-- One matrix element of 104 bytes: the header (type 14, 96 bytes), array
flags of class double, the dimensions 2 and 3, the name `A` in a header of two
16-bit words, and a double element of 48 bytes holding 1.0 to 6.0. -/
def sampleMatrix : List Byte :=
  [14, 0, 0, 0, 96, 0, 0, 0,
   6, 0, 0, 0, 8, 0, 0, 0, 6, 0, 0, 0, 0, 0, 0, 0,
   5, 0, 0, 0, 8, 0, 0, 0, 2, 0, 0, 0, 3, 0, 0, 0,
   1, 0, 1, 0, 65, 0, 0, 0,
   9, 0, 0, 0, 48, 0, 0, 0,
   0, 0, 0, 0, 0, 0, 240, 63, 0, 0, 0, 0, 0, 0, 0, 64,
   0, 0, 0, 0, 0, 0, 8, 64, 0, 0, 0, 0, 0, 0, 16, 64,
   0, 0, 0, 0, 0, 0, 20, 64, 0, 0, 0, 0, 0, 0, 24, 64]

/-- The 56 bytes that zlib's `compress` gives for `sampleMatrix`. -/
def sampleStream : List Byte :=
  [120, 156, 227, 99, 96, 96, 72, 0, 98, 54, 32, 230, 128, 210, 32, 192,
   10, 229, 51, 1, 49, 51, 16, 51, 2, 161, 35, 144, 230, 4, 98, 3,
   6, 24, 248, 96, 15, 101, 56, 64, 40, 14, 40, 45, 0, 165, 69, 160,
   180, 132, 3, 0, 157, 37, 3, 196]

/-- The inflate function of zlib on the one stream the examples use; every
other input is treated as corrupted. -/
def sampleInflate (source : List Byte) : Option (List Byte) :=
  if source = sampleStream then some sampleMatrix else none

/-- The file of the end-to-end example: the file header and `sampleMatrix`. -/
def sampleFile : List Byte := sampleFileHeader ++ sampleMatrix

/-- A compressed element in the form of two 32-bit words: type 15, 56 bytes,
and `sampleStream`. -/
def compressedElement : List Byte := [15, 0, 0, 0, 56, 0, 0, 0] ++ sampleStream

/-- A file in which the compressed tag comes in a header of two 16-bit words:
the file header, the words 15 and 56, and `sampleStream`. -/
def smallCompressedFile : List Byte := sampleFileHeader ++ [15, 0, 56, 0] ++ sampleStream

/-- The start of a struct matrix named `s` with three fields: the header
(type 14), array flags of class struct, the dimensions 1 and 1, the name `s`,
the field-name length 5 in a header of two 16-bit words, and the field names
`alpha`, `be` and `c`, each filled with NUL to 5 bytes, in an element of 15
bytes followed by one byte of padding. The values of the fields follow it. -/
def structHead : List Byte :=
  [14, 0, 0, 0, 8, 1, 0, 0,
   6, 0, 0, 0, 8, 0, 0, 0, 2, 0, 0, 0, 0, 0, 0, 0,
   5, 0, 0, 0, 8, 0, 0, 0, 1, 0, 0, 0, 1, 0, 0, 0,
   1, 0, 1, 0, 115, 0, 0, 0,
   5, 0, 4, 0, 5, 0, 0, 0,
   1, 0, 0, 0, 15, 0, 0, 0,
   97, 108, 112, 104, 97, 98, 101, 0, 0, 0, 99, 0, 0, 0, 0, 0]

/-- The value of one field: a matrix of class double with dimensions 1 and 1,
an empty name, and one double, 1.0. -/
def fieldMatrix : List Byte :=
  [14, 0, 0, 0, 56, 0, 0, 0,
   6, 0, 0, 0, 8, 0, 0, 0, 6, 0, 0, 0, 0, 0, 0, 0,
   5, 0, 0, 0, 8, 0, 0, 0, 1, 0, 0, 0, 1, 0, 0, 0,
   1, 0, 0, 0, 0, 0, 0, 0,
   9, 0, 0, 0, 8, 0, 0, 0, 0, 0, 0, 0, 0, 0, 240, 63]

/-- A file with the struct `s` and the values of its three fields. -/
def structFile : List Byte :=
  sampleFileHeader ++ structHead ++ fieldMatrix ++ fieldMatrix ++ fieldMatrix

/-- The file `structFile` followed by a fourth matrix. -/
def structFileFour : List Byte := structFile ++ fieldMatrix

/-- The start of a struct matrix named `s` without fields: as `structHead`,
with a field-names element of 0 bytes. -/
def emptyStructHead : List Byte :=
  [14, 0, 0, 0, 56, 0, 0, 0,
   6, 0, 0, 0, 8, 0, 0, 0, 2, 0, 0, 0, 0, 0, 0, 0,
   5, 0, 0, 0, 8, 0, 0, 0, 1, 0, 0, 0, 1, 0, 0, 0,
   1, 0, 1, 0, 115, 0, 0, 0,
   5, 0, 4, 0, 5, 0, 0, 0,
   1, 0, 0, 0, 0, 0, 0, 0]

/-- A file with a struct without fields, followed by `sampleMatrix`. -/
def emptyStructFile : List Byte := sampleFileHeader ++ emptyStructHead ++ sampleMatrix

/-- The decoder at offset `cursor` of the file `bytes`, with the globals in
their initial values. -/
def decoderAt (bytes : List Byte) (cursor : Nat) : Decoder :=
  Decoder.init ⟨bytes, cursor⟩

/-- The start of a struct matrix named `s` with the two fields `p` and `q`
(field-name length 2); the struct that is the value of `p` follows it. -/
def outerStructHead : List Byte :=
  [14, 0, 0, 0, 56, 1, 0, 0,
   6, 0, 0, 0, 8, 0, 0, 0, 2, 0, 0, 0, 0, 0, 0, 0,
   5, 0, 0, 0, 8, 0, 0, 0, 1, 0, 0, 0, 1, 0, 0, 0,
   1, 0, 1, 0, 115, 0, 0, 0,
   5, 0, 4, 0, 2, 0, 0, 0,
   1, 0, 4, 0, 112, 0, 113, 0]

/-- The start of the value of `p`: a struct matrix with an empty name and the
two fields `a` and `b` (field-name length 2). -/
def innerStructHead : List Byte :=
  [14, 0, 0, 0, 184, 0, 0, 0,
   6, 0, 0, 0, 8, 0, 0, 0, 2, 0, 0, 0, 0, 0, 0, 0,
   5, 0, 0, 0, 8, 0, 0, 0, 1, 0, 0, 0, 1, 0, 0, 0,
   1, 0, 0, 0, 0, 0, 0, 0,
   5, 0, 4, 0, 2, 0, 0, 0,
   1, 0, 4, 0, 97, 0, 98, 0]

/-- A file with a struct inside a struct: `s.p` is a struct with the fields `a`
and `b`, and the values of `a`, `b` and `s.q` are doubles. -/
def nestedStructFile : List Byte :=
  sampleFileHeader ++ outerStructHead ++ innerStructHead ++
    fieldMatrix ++ fieldMatrix ++ fieldMatrix

/-- A matrix element of class sparse (5) whose array flags are followed by a
subelement tagged `miUINT32` where the dimensions are expected. -/
def sparseThenGarbage : List Byte :=
  [14, 0, 0, 0, 32, 0, 0, 0,
   6, 0, 0, 0, 8, 0, 0, 0, 5, 0, 0, 0, 1, 0, 0, 0,
   6, 0, 0, 0, 8, 0, 0, 0, 2, 0, 0, 0, 3, 0, 0, 0]

/-- A matrix element of class sparse (5) with one non-zero value: array flags,
the dimensions 2 and 3, the name `A`, the row indices, the column offsets and
one double. -/
def sparseMatrix : List Byte :=
  [14, 0, 0, 0, 88, 0, 0, 0,
   6, 0, 0, 0, 8, 0, 0, 0, 5, 0, 0, 0, 1, 0, 0, 0,
   5, 0, 0, 0, 8, 0, 0, 0, 2, 0, 0, 0, 3, 0, 0, 0,
   1, 0, 1, 0, 65, 0, 0, 0,
   5, 0, 4, 0, 0, 0, 0, 0,
   5, 0, 0, 0, 16, 0, 0, 0, 0, 0, 0, 0, 1, 0, 0, 0, 1, 0, 0, 0, 1, 0, 0, 0,
   9, 0, 0, 0, 8, 0, 0, 0, 0, 0, 0, 0, 0, 0, 240, 63]

/-- A matrix element of class single (7) with dimensions 2 and 3, the name `A`,
and a `miSINGLE` element of 24 bytes holding 1.0 to 6.0. -/
def singleMatrix : List Byte :=
  [14, 0, 0, 0, 72, 0, 0, 0,
   6, 0, 0, 0, 8, 0, 0, 0, 7, 0, 0, 0, 0, 0, 0, 0,
   5, 0, 0, 0, 8, 0, 0, 0, 2, 0, 0, 0, 3, 0, 0, 0,
   1, 0, 1, 0, 65, 0, 0, 0,
   7, 0, 0, 0, 24, 0, 0, 0,
   0, 0, 128, 63, 0, 0, 0, 64, 0, 0, 64, 64,
   0, 0, 128, 64, 0, 0, 160, 64, 0, 0, 192, 64]

/-- Lines 435 to 443: the body of the loop of `main`, one top-level element. -/
def mainLoopBody (inflate : List Byte → Option (List Byte)) (fuel : Nat)
    (d : Decoder) : Except MatError Decoder := do
  let (element, mat) ← d.mat.ReadDataElementHeader inflate fuel
  if element.dataType = miMATRIX then ReadMatrix inflate fuel { d with mat := mat }
  else do
    let mat ← mat.Skip element.numberOfBytes
    pure { d with mat := mat }

/-- The indices of the bytes of `data` that lines 277 to 288 load, in the order
of the loads. The peek `((uint16_t*)&data[cursor])[1]` of line 279 loads the
bytes `cursor+2` and `cursor+3` with no assertion before it. `ReadPrimitive<T>`
binds a reference, advances the cursor and asserts, and loads its `sizeof(T)`
bytes only when it returns the value: its loads happen after its assertion has
passed. -/
def MatFile.headerLoads (st : MatFile) : List Nat :=
  let s := MatFile.alignCursor st.cursor
  [s + 2, s + 3] ++
    (if u16At st.data (s + 2) ≠ 0 then
      (if s + 2 ≤ st.data.length then
        [s, s + 1] ++ (if s + 4 ≤ st.data.length then [s + 2, s + 3] else [])
       else [])
     else
      (if s + 4 ≤ st.data.length then
        [s, s + 1, s + 2, s + 3] ++
          (if s + 8 ≤ st.data.length then [s + 4, s + 5, s + 6, s + 7] else [])
       else []))

/-- A matrix element of class char (4) with dimensions 1 and 2, the name `c`,
and the text `hi` in a `miUTF8` element of 2 bytes. -/
def charMatrix : List Byte :=
  [14, 0, 0, 0, 48, 0, 0, 0,
   6, 0, 0, 0, 8, 0, 0, 0, 4, 0, 0, 0, 0, 0, 0, 0,
   5, 0, 0, 0, 8, 0, 0, 0, 1, 0, 0, 0, 2, 0, 0, 0,
   1, 0, 1, 0, 99, 0, 0, 0,
   16, 0, 2, 0, 104, 105, 0, 0]

/-- The matrix of `charMatrix` with the text `hi` in a `miUTF16` element of 4
bytes. -/
def charMatrixUtf16 : List Byte :=
  [14, 0, 0, 0, 48, 0, 0, 0,
   6, 0, 0, 0, 8, 0, 0, 0, 4, 0, 0, 0, 0, 0, 0, 0,
   5, 0, 0, 0, 8, 0, 0, 0, 1, 0, 0, 0, 2, 0, 0, 0,
   1, 0, 1, 0, 99, 0, 0, 0,
   17, 0, 4, 0, 104, 0, 105, 0]

/-- The matrix of `sampleMatrix` with a dimensions subelement that declares 9
bytes: the extents 2 and 3, a ninth byte 1, and 7 bytes of padding, so that the
name subelement stands 16 bytes behind the start of the dimensions payload. -/
def oddDimensionsMatrix : List Byte :=
  [14, 0, 0, 0, 104, 0, 0, 0,
   6, 0, 0, 0, 8, 0, 0, 0, 6, 0, 0, 0, 0, 0, 0, 0,
   5, 0, 0, 0, 9, 0, 0, 0, 2, 0, 0, 0, 3, 0, 0, 0, 1, 0, 0, 0, 0, 0, 0, 0,
   1, 0, 1, 0, 65, 0, 0, 0,
   9, 0, 0, 0, 48, 0, 0, 0,
   0, 0, 0, 0, 0, 0, 240, 63, 0, 0, 0, 0, 0, 0, 0, 64,
   0, 0, 0, 0, 0, 0, 8, 64, 0, 0, 0, 0, 0, 0, 16, 64,
   0, 0, 0, 0, 0, 0, 20, 64, 0, 0, 0, 0, 0, 0, 24, 64]

/-- The matrix of `sampleMatrix` with the name subelement tagged `miUINT8`. -/
def uint8NameMatrix : List Byte :=
  [14, 0, 0, 0, 96, 0, 0, 0,
   6, 0, 0, 0, 8, 0, 0, 0, 6, 0, 0, 0, 0, 0, 0, 0,
   5, 0, 0, 0, 8, 0, 0, 0, 2, 0, 0, 0, 3, 0, 0, 0,
   2, 0, 1, 0, 65, 0, 0, 0,
   9, 0, 0, 0, 48, 0, 0, 0,
   0, 0, 0, 0, 0, 0, 240, 63, 0, 0, 0, 0, 0, 0, 0, 64,
   0, 0, 0, 0, 0, 0, 8, 64, 0, 0, 0, 0, 0, 0, 16, 64,
   0, 0, 0, 0, 0, 0, 20, 64, 0, 0, 0, 0, 0, 0, 24, 64]

/-- A matrix element of 1056 bytes: class double, dimensions 1 and 125, the
name `Z`, and a double element of 1000 zero bytes. -/
def zeroMatrix : List Byte :=
  [14, 0, 0, 0, 24, 4, 0, 0,
   6, 0, 0, 0, 8, 0, 0, 0, 6, 0, 0, 0, 0, 0, 0, 0,
   5, 0, 0, 0, 8, 0, 0, 0, 1, 0, 0, 0, 125, 0, 0, 0,
   1, 0, 1, 0, 90, 0, 0, 0,
   9, 0, 0, 0, 232, 3, 0, 0] ++ List.replicate 1000 0

/-- The 49 bytes that zlib's `compress` gives for `zeroMatrix`. -/
def zeroStream : List Byte :=
  [120, 156, 227, 99, 96, 96, 144, 96, 97, 96, 96, 3, 210, 28, 12, 16,
   26, 4, 88, 161, 124, 70, 32, 174, 5, 211, 140, 12, 81, 64, 154, 19,
   136, 95, 48, 51, 140, 130, 81, 48, 10, 70, 0, 0, 0, 86, 15, 2, 26]

/-- The inflate function of zlib on `sampleStream` and `zeroStream`; every
other input is treated as corrupted. -/
def twoStreamInflate (source : List Byte) : Option (List Byte) :=
  if source = sampleStream then some sampleMatrix
  else if source = zeroStream then some zeroMatrix
  else none

/-- A file with one compressed variable whose 49 payload bytes inflate to the
1056 bytes of `zeroMatrix`. -/
def zeroCompressedFile : List Byte := sampleFileHeader ++ [15, 0, 0, 0, 49, 0, 0, 0] ++ zeroStream

/-- A file with the one variable `charMatrix`: its last element, the text, ends
at offset 182 and is padded to the length 184 of the file. -/
def charFile : List Byte := sampleFileHeader ++ charMatrix

/-- A file with the one variable `oddDimensionsMatrix`. -/
def oddDimensionsFile : List Byte := sampleFileHeader ++ oddDimensionsMatrix

/-! # Theorems -/

/-! ## Lemmas on header reading -/

theorem alignCursor_mod (cursor : Nat) : MatFile.alignCursor cursor % 8 = 0 := by
  unfold MatFile.alignCursor; omega

theorem alignCursor_ge (cursor : Nat) : cursor ≤ MatFile.alignCursor cursor := by
  unfold MatFile.alignCursor; omega

theorem alignCursor_of_aligned (s : Nat) (h : s % 8 = 0) : MatFile.alignCursor s = s := by
  unfold MatFile.alignCursor; omega

theorem u16At_eq (data : List Byte) (pos : Nat) :
    u16At data pos = byteAt data pos + 256 * byteAt data (pos + 1) := by
  simp [u16At, readLE]

theorem byteAt_lt (data : List Byte) (i : Nat) : byteAt data i < 256 := by
  unfold byteAt; omega

/-- The header read in the form of two `uint32_t`. -/
theorem readHeaderAtCursor_normal (st : MatFile)
    (hfit : MatFile.alignCursor st.cursor + 8 ≤ st.data.length)
    (hpeek : u16At st.data (MatFile.alignCursor st.cursor + 2) = 0) :
    st.readHeaderAtCursor =
      .ok (⟨u32At st.data (MatFile.alignCursor st.cursor),
            u32At st.data (MatFile.alignCursor st.cursor + 4)⟩,
           ⟨st.data, MatFile.alignCursor st.cursor + 8⟩) := by
  have hmod := alignCursor_mod st.cursor
  have h4 : MatFile.alignCursor st.cursor + 4 ≤ st.data.length := by omega
  have h8 : MatFile.alignCursor st.cursor + 4 + 4 ≤ st.data.length := by omega
  simp [MatFile.readHeaderAtCursor, MatFile.ReadPrimitive, hmod, hpeek, h4, h8, u32At,
    bind, Except.bind, pure, Except.pure, Nat.add_assoc]

/-- The header read in the form of two `uint16_t`. -/
theorem readHeaderAtCursor_small (st : MatFile)
    (hfit : MatFile.alignCursor st.cursor + 4 ≤ st.data.length)
    (hpeek : u16At st.data (MatFile.alignCursor st.cursor + 2) ≠ 0) :
    st.readHeaderAtCursor =
      .ok (⟨u16At st.data (MatFile.alignCursor st.cursor),
            u16At st.data (MatFile.alignCursor st.cursor + 2)⟩,
           ⟨st.data, MatFile.alignCursor st.cursor + 4⟩) := by
  have hmod := alignCursor_mod st.cursor
  have h2 : MatFile.alignCursor st.cursor + 2 ≤ st.data.length := by omega
  have h4 : MatFile.alignCursor st.cursor + 2 + 2 ≤ st.data.length := by omega
  simp only [u16At] at hpeek
  simp [MatFile.readHeaderAtCursor, MatFile.ReadPrimitive, hmod, hpeek, h2, h4, u16At,
    bind, Except.bind, pure, Except.pure, Nat.add_assoc]


/-- C1: when the 8 bytes of a header lie in the buffer at the aligned cursor
`s`, bytes `s+2` and `s+3` are zero and the 32-bit word at `s` is not the
compressed tag, `ReadDataElementHeader` returns the two 32-bit words at `s` and
`s+4`, keeps the buffer and leaves the cursor at `s+8`. -/
theorem readDataElementHeader_normal_form (inflate : List Byte → Option (List Byte))
    (fuel : Nat) (st : MatFile)
    (hfit : MatFile.alignCursor st.cursor + 8 ≤ st.data.length)
    (hb2 : byteAt st.data (MatFile.alignCursor st.cursor + 2) = 0)
    (hb3 : byteAt st.data (MatFile.alignCursor st.cursor + 3) = 0)
    (htag : u32At st.data (MatFile.alignCursor st.cursor) ≠ miCOMPRESSED) :
    MatFile.ReadDataElementHeader inflate (fuel + 1) st =
      .ok (⟨u32At st.data (MatFile.alignCursor st.cursor),
            u32At st.data (MatFile.alignCursor st.cursor + 4)⟩,
           ⟨st.data, MatFile.alignCursor st.cursor + 8⟩) := by
  have hpeek : u16At st.data (MatFile.alignCursor st.cursor + 2) = 0 := by
    rw [u16At_eq, hb2, Nat.add_assoc, hb3]
  simp [MatFile.ReadDataElementHeader, readHeaderAtCursor_normal st hfit hpeek, htag,
    bind, Except.bind, pure, Except.pure]

/-- C2: when the slot of 8 bytes lies in the buffer at the aligned cursor `s`,
the 16-bit word at `s+2` is not zero and the 16-bit word at `s` is not 15,
`ReadDataElementHeader` returns the two 16-bit words at `s` and `s+2`, keeps
the buffer and leaves the cursor at `s+4`; a following read of `l ≤ 4` bytes
gives bytes `s+4` to `s+4+l-1`, all inside the slot. -/
theorem readDataElementHeader_small_form (inflate : List Byte → Option (List Byte))
    (fuel : Nat) (st : MatFile)
    (hfit : MatFile.alignCursor st.cursor + 8 ≤ st.data.length)
    (hpeek : u16At st.data (MatFile.alignCursor st.cursor + 2) ≠ 0)
    (htag : u16At st.data (MatFile.alignCursor st.cursor) ≠ 15) :
    MatFile.ReadDataElementHeader inflate (fuel + 1) st =
      .ok (⟨u16At st.data (MatFile.alignCursor st.cursor),
            u16At st.data (MatFile.alignCursor st.cursor + 2)⟩,
           ⟨st.data, MatFile.alignCursor st.cursor + 4⟩) ∧
    ∀ l, l ≤ 4 →
      MatFile.ReadMem ⟨st.data, MatFile.alignCursor st.cursor + 4⟩ l =
          .ok ((st.data.drop (MatFile.alignCursor st.cursor + 4)).take l,
               ⟨st.data, MatFile.alignCursor st.cursor + 4 + l⟩) ∧
        ((st.data.drop (MatFile.alignCursor st.cursor + 4)).take l).length = l ∧
        (∀ i, i < l →
          ((st.data.drop (MatFile.alignCursor st.cursor + 4)).take l).getD i 0 =
            st.data.getD (MatFile.alignCursor st.cursor + 4 + i) 0) ∧
        MatFile.alignCursor st.cursor + 4 + l ≤ MatFile.alignCursor st.cursor + 8 := by
  have hfit4 : MatFile.alignCursor st.cursor + 4 ≤ st.data.length := by omega
  refine ⟨?_, ?_⟩
  · simp [MatFile.ReadDataElementHeader, readHeaderAtCursor_small st hfit4 hpeek, htag,
      miCOMPRESSED, bind, Except.bind, pure, Except.pure]
  · intro l hl
    have hle : MatFile.alignCursor st.cursor + 4 + l ≤ st.data.length := by omega
    refine ⟨?_, ?_, ?_, by omega⟩
    · simp [MatFile.ReadMem, hle]
    · simp; omega
    · intro i hi
      simp [List.getD_eq_getElem?_getD, List.getElem?_take, hi]



set_option maxRecDepth 1000000 in
/-- Witness of C1: in `sampleFile` the cursor 173, left behind the name, is
aligned to 176, where the header of the double element stands. -/
theorem readDataElementHeader_normal_form_witness :
    (MatFile.alignCursor 173 + 8 ≤ sampleFile.length ∧
      byteAt sampleFile (MatFile.alignCursor 173 + 2) = 0 ∧
      byteAt sampleFile (MatFile.alignCursor 173 + 3) = 0 ∧
      u32At sampleFile (MatFile.alignCursor 173) ≠ miCOMPRESSED) ∧
    MatFile.ReadDataElementHeader sampleInflate 1 ⟨sampleFile, 173⟩ =
      .ok (⟨miDOUBLE, 48⟩, ⟨sampleFile, 184⟩) :=
  ⟨by decide,
   readDataElementHeader_normal_form sampleInflate 0 ⟨sampleFile, 173⟩
     (by decide) (by decide) (by decide) (by decide)⟩

set_option maxRecDepth 1000000 in
/-- Witness of C2: in `sampleFile` the name subelement stands at offset 168 in
a header of two 16-bit words, type 1 and length 1, and its one byte is `A`. -/
theorem readDataElementHeader_small_form_witness :
    (MatFile.alignCursor 168 + 8 ≤ sampleFile.length ∧
      u16At sampleFile (MatFile.alignCursor 168 + 2) ≠ 0 ∧
      u16At sampleFile (MatFile.alignCursor 168) ≠ 15) ∧
    MatFile.ReadDataElementHeader sampleInflate 1 ⟨sampleFile, 168⟩ =
      .ok (⟨miINT8, 1⟩, ⟨sampleFile, 172⟩) ∧
    MatFile.ReadMem ⟨sampleFile, 172⟩ 1 = .ok ([65], ⟨sampleFile, 173⟩) :=
  have h := readDataElementHeader_small_form sampleInflate 0 ⟨sampleFile, 168⟩
    (by decide) (by decide) (by decide)
  ⟨by decide, h.1, (h.2 1 (by decide)).1⟩

/-! ## The splice of inflated bytes -/

theorem resize_grow (data : List Byte) (n : Nat) (h : data.length ≤ n) :
    resize data n = data ++ List.replicate (n - data.length) 0 := by
  unfold resize
  rw [List.take_of_length_le h]

/-- The splice after a header of two 32-bit words at `s`, when the bytes behind
the compressed region are no more than the growth of the region: the region is
replaced by the inflated bytes, and the bytes before and behind it are kept. -/
theorem inflateAndSplice_exact (inflate : List Byte → Option (List Byte))
    (D U : List Byte) (s n t : Nat)
    (hfit : s + 8 + n ≤ D.length)
    (hinf : inflate ((D.drop (s + 8)).take n) = some U)
    (hcap : U.length ≤ n * 20 % 2 ^ 32)
    (hgrow : 8 + n < U.length)
    (htail : D.length ≤ s + U.length) :
    MatFile.inflateAndSplice inflate ⟨D, s + 8⟩ ⟨t, n⟩ =
      .ok ⟨D.take s ++ U ++ D.drop (s + 8 + n), s⟩ := by
  have hunc : uncompress inflate (n * 20 % 2 ^ 32) ((D.drop (s + 8)).take n) = .Z_OK U := by
    unfold uncompress
    rw [hinf]
    simp only [hcap, if_true]
  have h1 : ¬ D.length < s + 8 + n := by omega
  have h2 : ¬ ¬ U.length > sizeofMatDataElementHeader + n := by
    unfold sizeofMatDataElementHeader; omega
  have h3 : ¬ s + 8 < sizeofMatDataElementHeader := by
    unfold sizeofMatDataElementHeader; omega
  have hres : resize D (D.length + U.length - (sizeofMatDataElementHeader + n)) =
      D ++ List.replicate (U.length - (8 + n)) 0 := by
    rw [resize_grow _ _ (by unfold sizeofMatDataElementHeader; omega)]
    congr 2
    unfold sizeofMatDataElementHeader; omega
  have hcur : s + 8 - sizeofMatDataElementHeader = s := by
    unfold sizeofMatDataElementHeader; omega
  have hsrc : s + (sizeofMatDataElementHeader + n) = s + 8 + n := by
    unfold sizeofMatDataElementHeader; omega
  have hlen : D.length - s - (sizeofMatDataElementHeader + n) = D.length - (s + 8 + n) := by
    unfold sizeofMatDataElementHeader; omega
  unfold MatFile.inflateAndSplice
  simp only [hunc, h1, h2, h3, if_false, bind, Except.bind, pure, Except.pure, hres, hcur,
    hsrc, hlen]
  set Z : List Byte := List.replicate (U.length - (8 + n)) 0 with hZ
  have hZlen : Z.length = U.length - (8 + n) := by simp [hZ]
  have htakeD : (D ++ Z).take s = D.take s := by
    rw [List.take_append_of_le_length (by omega)]
  have hUpos : U.length ≠ 0 := by omega
  by_cases hzero : D.length - (s + 8 + n) = 0
  · have hDlen : D.length = s + 8 + n := by omega
    have hdropD : D.drop (s + 8 + n) = [] := List.drop_eq_nil_of_le (by omega)
    have hdropE : (D ++ Z).drop (s + U.length) = [] :=
      List.drop_eq_nil_of_le (by rw [List.length_append, hZlen]; omega)
    have hbound : ¬ (D ++ Z).length < s + U.length := by
      rw [List.length_append, hZlen]; omega
    simp only [memcpyWithin, hzero, if_true, memcpyFrom, hUpos, if_false, hbound, htakeD,
      hdropE, hdropD]
  · have hb1 : ¬ ((D ++ Z).length < s + 8 + n + (D.length - (s + 8 + n)) ∨
        (D ++ Z).length < s + U.length + (D.length - (s + 8 + n))) := by
      rw [List.length_append, hZlen]; omega
    have hb2 : ¬ (s + 8 + n < s + U.length + (D.length - (s + 8 + n)) ∧
        s + U.length < s + 8 + n + (D.length - (s + 8 + n))) := by omega
    have hE : (D ++ Z).drop (s + 8 + n) = D.drop (s + 8 + n) ++ Z :=
      List.drop_append_of_le_length hfit
    have hB : ((D ++ Z).drop (s + 8 + n)).take (D.length - (s + 8 + n)) = D.drop (s + 8 + n) := by
      rw [hE]
      exact List.take_left' (by simp)
    have hC : (D ++ Z).drop (s + U.length + (D.length - (s + 8 + n))) = [] :=
      List.drop_eq_nil_of_le (by rw [List.length_append, hZlen]; omega)
    have hAlen : ((D ++ Z).take (s + U.length)).length = s + U.length := by
      rw [List.length_take, List.length_append, hZlen]; omega
    simp only [memcpyWithin, hzero, if_false, hb1, hb2, hB, hC, List.append_nil]
    have hbound : ¬ ((D ++ Z).take (s + U.length) ++ D.drop (s + 8 + n)).length <
        s + U.length := by
      rw [List.length_append, hAlen]; omega
    have ht : ((D ++ Z).take (s + U.length) ++ D.drop (s + 8 + n)).take s = D.take s := by
      rw [List.take_append_of_le_length (by omega), List.take_take,
        Nat.min_eq_left (by omega), htakeD]
    have hd : ((D ++ Z).take (s + U.length) ++ D.drop (s + 8 + n)).drop (s + U.length) =
        D.drop (s + 8 + n) := List.drop_left' hAlen
    simp only [memcpyFrom, hUpos, if_false, hbound, ht, hd]

/-- The splice after a header of two 32-bit words at `s`, when more bytes
follow the compressed region than the region grows by: the two regions of the
first `memcpy` overlap. -/
theorem inflateAndSplice_overlap (inflate : List Byte → Option (List Byte))
    (D U : List Byte) (s n t : Nat)
    (hfit : s + 8 + n ≤ D.length)
    (hinf : inflate ((D.drop (s + 8)).take n) = some U)
    (hcap : U.length ≤ n * 20 % 2 ^ 32)
    (hgrow : 8 + n < U.length)
    (htail : s + U.length < D.length) :
    MatFile.inflateAndSplice inflate ⟨D, s + 8⟩ ⟨t, n⟩ = .error .Fault := by
  have hunc : uncompress inflate (n * 20 % 2 ^ 32) ((D.drop (s + 8)).take n) = .Z_OK U := by
    unfold uncompress
    rw [hinf]
    simp only [hcap, if_true]
  have h1 : ¬ D.length < s + 8 + n := by omega
  have h2 : ¬ ¬ U.length > sizeofMatDataElementHeader + n := by
    unfold sizeofMatDataElementHeader; omega
  have h3 : ¬ s + 8 < sizeofMatDataElementHeader := by
    unfold sizeofMatDataElementHeader; omega
  have hres : resize D (D.length + U.length - (sizeofMatDataElementHeader + n)) =
      D ++ List.replicate (U.length - (8 + n)) 0 := by
    rw [resize_grow _ _ (by unfold sizeofMatDataElementHeader; omega)]
    congr 2
    unfold sizeofMatDataElementHeader; omega
  have hcur : s + 8 - sizeofMatDataElementHeader = s := by
    unfold sizeofMatDataElementHeader; omega
  have hsrc : s + (sizeofMatDataElementHeader + n) = s + 8 + n := by
    unfold sizeofMatDataElementHeader; omega
  have hlen : D.length - s - (sizeofMatDataElementHeader + n) = D.length - (s + 8 + n) := by
    unfold sizeofMatDataElementHeader; omega
  unfold MatFile.inflateAndSplice
  simp only [hunc, h1, h2, h3, if_false, bind, Except.bind, pure, Except.pure, hres, hcur,
    hsrc, hlen]
  have hzero : ¬ D.length - (s + 8 + n) = 0 := by omega
  have hb1 : ¬ ((D ++ List.replicate (U.length - (8 + n)) (0 : Byte)).length <
        s + 8 + n + (D.length - (s + 8 + n)) ∨
      (D ++ List.replicate (U.length - (8 + n)) (0 : Byte)).length <
        s + U.length + (D.length - (s + 8 + n))) := by
    rw [List.length_append, List.length_replicate]; omega
  have hb2 : s + 8 + n < s + U.length + (D.length - (s + 8 + n)) ∧
      s + U.length < s + 8 + n + (D.length - (s + 8 + n)) := by omega
  simp only [memcpyWithin, hzero, if_false, hb1, hb2, and_self, if_true]

/-! ## The splice of inflated bytes on concrete files -/

set_option maxRecDepth 1000000 in
/-- C4: in `smallCompressedFile` the header at offset 128 is read as two 16-bit
words, type 15 and 56 bytes, and leaves the cursor at 132. The splice then
takes 8 from the cursor: it ends at 124, not at 128, the inflated bytes start
at 124 over the last four bytes of the file header, and the header read again
at 128 decodes bytes 4 to 11 of the inflated data, type 96 and length 6,
instead of its first 8 bytes, type 14 and length 96. -/
theorem splice_after_small_header_rewinds_too_far :
    MatFile.readHeaderAtCursor ⟨smallCompressedFile, 128⟩ =
        .ok (⟨miCOMPRESSED, 56⟩, ⟨smallCompressedFile, 132⟩) ∧
      MatFile.inflateAndSplice sampleInflate ⟨smallCompressedFile, 132⟩ ⟨miCOMPRESSED, 56⟩ =
        .ok ⟨sampleFileHeader.take 124 ++ sampleMatrix, 124⟩ ∧
      MatFile.ReadDataElementHeader sampleInflate 2 ⟨smallCompressedFile, 128⟩ =
        .ok (⟨96, 6⟩, ⟨sampleFileHeader.take 124 ++ sampleMatrix, 136⟩) ∧
      MatFile.readHeaderAtCursor ⟨sampleMatrix, 0⟩ = .ok (⟨miMATRIX, 96⟩, ⟨sampleMatrix, 8⟩) := by
  decide

set_option maxRecDepth 1000000 in
/-- C6: on `sampleFile` (the file header and one matrix element of class
double with dimensions 2 and 3, name `A` and 48 bytes of double data) the run
of `main` succeeds for every inflate function, every positive header fuel and
every bound of at least two loop steps: it prints the dimensions 2 and 3, the
name `A` and a numeric element of type 9, leaves `A` as the current array name
and stops with the cursor at the length of the buffer, 232; the header of the
data element, read at the cursor 173 that the name leaves, is type 9 with 48
bytes. -/
theorem main_decodes_sampleFile (inflate : List Byte → Option (List Byte)) (fuel steps : Nat) :
    main inflate (fuel + 1) (steps + 2) sampleFile =
        .ok { mat := ⟨sampleFile, sampleFile.length⟩, currentField := 2 ^ 64 - 1,
              arrayName := [65], fieldNames := [],
              output := [Event.dimension 2, Event.dimension 3, Event.named [65],
                         Event.numeric miDOUBLE] } ∧
      sampleFile.length = 232 ∧
      MatFile.ReadDataElementHeader inflate (fuel + 1) ⟨sampleFile, 173⟩ =
        .ok (⟨miDOUBLE, 48⟩, ⟨sampleFile, 184⟩) ∧
      MatFile.Skip ⟨sampleFile, 184⟩ 48 = .ok ⟨sampleFile, sampleFile.length⟩ := by
  refine ⟨?_, ?_, ?_, ?_⟩ <;> rfl


/-! ## Struct field names -/

theorem bind_eq_ok {α β : Type} (x : Except MatError α) (f : α → Except MatError β) (b : β) :
    (x >>= f) = .ok b ↔ ∃ a, x = .ok a ∧ f a = .ok b := by
  cases x with
  | error e => simp [bind, Except.bind]
  | ok a => simp [bind, Except.bind]

theorem toInt32_of_lt (v : Nat) (h : v < 2 ^ 31) : toInt32 v = (v : Int) := by
  have h1 : v % 2 ^ 32 = v := Nat.mod_eq_of_lt (by omega)
  unfold toInt32
  rw [h1, if_pos h]

/-- The loop over the field names reads `count` consecutive chunks of
`fieldNameLength` bytes, prints each cut at its first NUL, and pushes each
chunk whole at the back of the list. -/
theorem readFieldNames_eq (fieldNameLength : Nat) :
    ∀ (count i : Nat) (d : Decoder),
      d.mat.cursor + count * fieldNameLength ≤ d.mat.data.length →
      readFieldNames fieldNameLength count i d =
        .ok { d with
              mat := ⟨d.mat.data, d.mat.cursor + count * fieldNameLength⟩,
              output := d.output ++ (List.range count).map (fun j =>
                Event.listedField (i + j)
                  (cstr ((d.mat.data.drop (d.mat.cursor + j * fieldNameLength)).take
                    fieldNameLength))),
              fieldNames := d.fieldNames ++ (List.range count).map (fun j =>
                (d.mat.data.drop (d.mat.cursor + j * fieldNameLength)).take fieldNameLength) } := by
  intro count
  induction count with
  | zero => intro i d _; simp [readFieldNames]
  | succ n ih =>
    intro i d hfit
    have hmul : (n + 1) * fieldNameLength = n * fieldNameLength + fieldNameLength :=
      Nat.succ_mul n fieldNameLength
    have h1 : d.mat.cursor + fieldNameLength ≤ d.mat.data.length := by omega
    have hrd : d.mat.ReadMem fieldNameLength =
        .ok ((d.mat.data.drop d.mat.cursor).take fieldNameLength,
             ⟨d.mat.data, d.mat.cursor + fieldNameLength⟩) := by
      simp [MatFile.ReadMem, h1]
    have hshift : ∀ j, d.mat.cursor + fieldNameLength + j * fieldNameLength =
        d.mat.cursor + (j + 1) * fieldNameLength := by
      intro j; rw [Nat.succ_mul]; omega
    rw [readFieldNames]
    simp only [hrd, bind, Except.bind]
    rw [ih]
    · simp only [List.range_succ_eq_map, List.map_cons, List.map_map, Function.comp_def,
        hshift, List.append_assoc, List.singleton_append, Nat.zero_mul, Nat.add_zero,
        Nat.succ_eq_add_one]
      have e1 : ∀ j, i + 1 + j = i + (j + 1) := by intro j; omega
      simp only [e1]
    · simp only; omega


/-- The function `ReadMatrixStruct` on a well-formed pair of subelements: the
names are pushed behind the names already in the list, and the index is 0. -/
theorem readMatrixStruct_eq (inflate : List Byte → Option (List Byte)) (fuel : Nat)
    (d : Decoder) (m1 m2 m3 : MatFile) (L k : Nat)
    (hL : 0 < L) (hL31 : L < 2 ^ 31) (hk31 : k < 2 ^ 31)
    (h1 : d.mat.ReadDataElementHeader inflate fuel = .ok (⟨miINT32, 4⟩, m1))
    (h2 : m1.ReadPrimitive 4 = .ok (L, m2))
    (h3 : m2.ReadDataElementHeader inflate fuel = .ok (⟨miINT8, k * L⟩, m3))
    (hfit : m3.cursor + k * L ≤ m3.data.length) :
    ReadMatrixStruct inflate fuel d =
      .ok { d with
            mat := ⟨m3.data, m3.cursor + k * L⟩,
            output := d.output ++ (List.range k).map (fun j =>
              Event.listedField j (cstr ((m3.data.drop (m3.cursor + j * L)).take L))),
            fieldNames := d.fieldNames ++ (List.range k).map (fun j =>
              (m3.data.drop (m3.cursor + j * L)).take L),
            currentField := 0 } := by
  have hmod : k * L % L = 0 := Nat.mul_mod_left k L
  have hdiv : k * L / L = k := Nat.mul_div_cancel k hL
  have hL0 : L ≠ 0 := by omega
  have hcount : toInt32 k = (k : Int) := toInt32_of_lt k hk31
  have hlen : toInt32 L = (L : Int) := toInt32_of_lt L hL31
  have hneg : ¬ ((L : Int) < 0) := by omega
  have hloop := readFieldNames_eq L k 0 { d with mat := m3 } hfit
  unfold ReadMatrixStruct
  simp only [h1, h2, h3, bind, Except.bind, hmod, hdiv, hL0, hcount, hlen, hneg, hloop,
    Int.toNat_ofNat, ne_eq, not_true_eq_false, if_false, ite_false, pure, Except.pure,
    Nat.zero_add, ↓reduceIte]


/-! ## What the steps of `ReadMatrix` leave unchanged -/

theorem readArrayFlags_frame {inflate : List Byte → Option (List Byte)} {fuel : Nat}
    {e e1 : Decoder} {flags : MatArrayFlagsSubelement}
    (h : readArrayFlags inflate fuel e = .ok (flags, e1)) :
    e1.fieldNames = e.fieldNames ∧ e1.currentField = e.currentField ∧
      e1.arrayName = e.arrayName ∧ e1.output = e.output := by
  unfold readArrayFlags at h
  cases hh : e.mat.ReadDataElementHeader inflate fuel with
  | error err => simp [hh, bind, Except.bind] at h
  | ok v =>
    obtain ⟨hd, m⟩ := v
    simp only [hh, bind, Except.bind] at h
    split_ifs at h
    all_goals try (simp [throw, throwThe, MonadExceptOf.throw, pure, Except.pure] at h)
    all_goals
      cases hp : m.ReadPrimitive sizeofMatArrayFlagsSubelement with
      | error err => simp [hp, pure, Except.pure] at h
      | ok w =>
        simp [hp, pure, Except.pure] at h
        obtain ⟨_, rfl⟩ := h
        simp

theorem readExtents_frame : ∀ (n : Nat) (d d' : Decoder), readExtents n d = .ok d' →
    d'.fieldNames = d.fieldNames ∧ d'.currentField = d.currentField ∧
      d'.arrayName = d.arrayName ∧ ∃ rest, d'.output = d.output ++ rest := by
  intro n
  induction n with
  | zero =>
    intro d d' h
    simp [readExtents] at h
    subst h
    exact ⟨rfl, rfl, rfl, [], by simp⟩
  | succ n ih =>
    intro d d' h
    rw [readExtents] at h
    cases hp : d.mat.ReadPrimitive 4 with
    | error err => simp [hp, bind, Except.bind] at h
    | ok w =>
      simp only [hp, bind, Except.bind] at h
      obtain ⟨a, b, c, rest, hr⟩ := ih _ _ h
      refine ⟨a, b, c, ?_⟩
      exact ⟨_ :: rest, by simpa using hr⟩


theorem readDimensions_frame {inflate : List Byte → Option (List Byte)} {fuel : Nat}
    {d d' : Decoder} (h : readDimensions inflate fuel d = .ok d') :
    d'.fieldNames = d.fieldNames ∧ d'.currentField = d.currentField ∧
      d'.arrayName = d.arrayName ∧ ∃ rest, d'.output = d.output ++ rest := by
  unfold readDimensions at h
  cases hh : d.mat.ReadDataElementHeader inflate fuel with
  | error err => simp [hh, bind, Except.bind] at h
  | ok v =>
    obtain ⟨hd, m⟩ := v
    simp only [hh, bind, Except.bind] at h
    split_ifs at h
    simpa using readExtents_frame _ _ _ h

theorem readArrayName_frame {inflate : List Byte → Option (List Byte)} {fuel : Nat}
    {d d' : Decoder} (h : readArrayName inflate fuel d = .ok d') :
    d'.fieldNames = d.fieldNames ∧ d'.currentField = d.currentField ∧
      ∃ rest, d'.output = d.output ++ rest := by
  unfold readArrayName at h
  cases hh : d.mat.ReadDataElementHeader inflate fuel with
  | error err => simp [hh, bind, Except.bind] at h
  | ok v =>
    obtain ⟨hd, m⟩ := v
    simp only [hh, bind, Except.bind] at h
    split_ifs at h
    · cases hm : m.ReadMem hd.numberOfBytes with
      | error err => simp [hm, pure, Except.pure] at h
      | ok w =>
        simp [hm, pure, Except.pure] at h
        subst h
        exact ⟨rfl, rfl, _, rfl⟩
    · simp [pure, Except.pure] at h
      subst h
      exact ⟨rfl, rfl, [], by simp⟩

theorem readMatrixChar_frame {inflate : List Byte → Option (List Byte)} {fuel : Nat}
    {d d' : Decoder} (h : ReadMatrixChar inflate fuel d = .ok d') :
    d'.fieldNames = d.fieldNames ∧ d'.currentField = d.currentField ∧
      ∃ rest, d'.output = d.output ++ rest := by
  unfold ReadMatrixChar at h
  cases hh : d.mat.ReadDataElementHeader inflate fuel with
  | error err => simp [hh, bind, Except.bind] at h
  | ok v =>
    obtain ⟨hd, m⟩ := v
    simp only [hh, bind, Except.bind] at h
    split_ifs at h
    cases hm : m.ReadMem hd.numberOfBytes with
    | error err => simp [hm, pure, Except.pure] at h
    | ok w =>
      simp [hm, pure, Except.pure] at h
      subst h
      exact ⟨rfl, rfl, _, rfl⟩

theorem readMatrixDouble_frame {inflate : List Byte → Option (List Byte)} {fuel : Nat}
    {d d' : Decoder} (h : ReadMatrixDouble inflate fuel d = .ok d') :
    d'.fieldNames = d.fieldNames ∧ d'.currentField = d.currentField ∧
      ∃ rest, d'.output = d.output ++ rest := by
  unfold ReadMatrixDouble at h
  cases hh : d.mat.ReadDataElementHeader inflate fuel with
  | error err => simp [hh, bind, Except.bind] at h
  | ok v =>
    obtain ⟨hd, m⟩ := v
    simp only [hh, bind, Except.bind] at h
    split_ifs at h
    cases hm : m.Skip hd.numberOfBytes with
    | error err => simp [hm, pure, Except.pure] at h
    | ok w =>
      simp [hm, pure, Except.pure] at h
      subst h
      exact ⟨rfl, rfl, _, rfl⟩

theorem attributeField_inside {d : Decoder} (hidx : d.currentField < d.fieldNames.length) :
    attributeField d = .ok { d with
      output := d.output ++
        [Event.attributed (cstr d.arrayName) (cstr (d.fieldNames.getD d.currentField []))],
      currentField := d.currentField + 1 } := by
  have hne : d.fieldNames.isEmpty = false := by
    cases hfn : d.fieldNames with
    | nil => simp [hfn] at hidx
    | cons a l => rfl
  unfold attributeField
  rw [hne, if_neg (by simp), if_pos hidx]

/-- A matrix that is not of class struct, read while the field index is inside
the list of names, is printed under the name at that index, moves the index by
one and keeps the list. -/
theorem readMatrix_attributes {inflate : List Byte → Option (List Byte)} {fuel : Nat}
    {e e1 e' : Decoder} {flags : MatArrayFlagsSubelement}
    (hidx : e.currentField < e.fieldNames.length)
    (hflags : readArrayFlags inflate fuel e = .ok (flags, e1))
    (hclass : flags.matrixClass ≠ mxSTRUCT_CLASS)
    (hok : ReadMatrix inflate fuel e = .ok e') :
    (∃ rest, e'.output = e.output ++
        Event.attributed (cstr e.arrayName) (cstr (e.fieldNames.getD e.currentField [])) :: rest) ∧
      e'.currentField = e.currentField + 1 ∧ e'.fieldNames = e.fieldNames := by
  obtain ⟨f1, f2, f3, f4⟩ := readArrayFlags_frame hflags
  have hattr := attributeField_inside (d := e1) (by rw [f1, f2]; exact hidx)
  unfold ReadMatrix at hok
  rw [bind_eq_ok] at hok
  obtain ⟨⟨fl, d4⟩, hpro, hdisp⟩ := hok
  unfold readMatrixPrologue at hpro
  rw [hflags] at hpro
  simp only [bind, Except.bind] at hpro
  rw [hattr] at hpro
  simp only [] at hpro
  generalize hgen : ({ e1 with
      output := e1.output ++
        [Event.attributed (cstr e1.arrayName) (cstr (e1.fieldNames.getD e1.currentField []))],
      currentField := e1.currentField + 1 } : Decoder) = e2 at hpro
  cases hd : readDimensions inflate fuel e2 with
  | error err => simp [hd] at hpro
  | ok d3 =>
    obtain ⟨a1, a2, -, r1, a4⟩ := readDimensions_frame hd
    simp only [hd] at hpro
    cases hn : readArrayName inflate fuel d3 with
    | error err => simp [hn] at hpro
    | ok d4' =>
      obtain ⟨b1, b2, r2, b4⟩ := readArrayName_frame hn
      simp only [hn, pure, Except.pure, Except.ok.injEq, Prod.mk.injEq] at hpro
      obtain ⟨rfl, rfl⟩ := hpro
      subst hgen
      simp only [hclass, if_false] at hdisp
      have key : ∀ d5 : Decoder, (d5.fieldNames = d4'.fieldNames ∧
          d5.currentField = d4'.currentField ∧ ∃ rest, d5.output = d4'.output ++ rest) →
          (∃ rest, d5.output = e.output ++
            Event.attributed (cstr e.arrayName) (cstr (e.fieldNames.getD e.currentField [])) ::
              rest) ∧
          d5.currentField = e.currentField + 1 ∧ d5.fieldNames = e.fieldNames := by
        rintro d5 ⟨c1, c2, r3, c4⟩
        refine ⟨⟨r1 ++ (r2 ++ r3), ?_⟩, ?_, ?_⟩
        · rw [c4, b4, a4]; simp [f1, f2, f3, f4]
        · rw [c2, b2, a2]; simp [f2]
        · rw [c1, b1, a1]; simp [f1]
      split_ifs at hdisp
      · exact key _ (readMatrixChar_frame hdisp)
      · exact key _ (readMatrixDouble_frame hdisp)

/-- A matrix read while the list of names is not empty and the field index has
reached its length fails with `FieldIndexExceeded` once its array flags are
read. -/
theorem readMatrix_fieldIndexExceeded {inflate : List Byte → Option (List Byte)} {fuel : Nat}
    {e e1 : Decoder} {flags : MatArrayFlagsSubelement}
    (hne : e.fieldNames ≠ [])
    (hidx : e.fieldNames.length ≤ e.currentField)
    (hflags : readArrayFlags inflate fuel e = .ok (flags, e1)) :
    ReadMatrix inflate fuel e = .error .FieldIndexExceeded := by
  obtain ⟨f1, f2, -, -⟩ := readArrayFlags_frame hflags
  have hne1 : e1.fieldNames.isEmpty = false := by
    rw [f1]; cases hfn : e.fieldNames with
    | nil => exact absurd hfn hne
    | cons a l => rfl
  have hidx1 : ¬ e1.currentField < e1.fieldNames.length := by rw [f1, f2]; omega
  have hattr : attributeField e1 = .error .FieldIndexExceeded := by
    unfold attributeField
    rw [hne1, if_neg (by simp), if_neg hidx1]
  unfold ReadMatrix readMatrixPrologue
  simp only [hflags, hattr, bind, Except.bind]


/-! ## The walk over the fields of a struct -/

set_option maxRecDepth 1000000 in
/-- C7, as stated, fails in three places. In `emptyStructFile` the field-name
length is 5 and the field-names element has 0 bytes (k = 0): `ReadMatrixStruct`
produces no name, and the first matrix read after it, the (k+1)-th, is decoded
without `FieldIndexExceeded`. In `structFile` the field-name length is 5 and
the field-names element has 15 bytes: the second and third names are kept with
their NUL bytes, 5 bytes each, not trimmed. In `nestedStructFile` the first
matrix read after the two names `p` and `q` is itself a struct: it leaves the
field index at 0, not at 1, so that the next matrix is not printed under the
second name. -/
theorem struct_without_fields_and_untrimmed_names :
    ReadMatrixStruct sampleInflate 1 (decoderAt emptyStructFile 176) =
        .ok { decoderAt emptyStructFile 192 with currentField := 0 } ∧
      MatFile.ReadDataElementHeader sampleInflate 1 ⟨emptyStructFile, 192⟩ =
        .ok (⟨miMATRIX, 96⟩, ⟨emptyStructFile, 200⟩) ∧
      ReadMatrix sampleInflate 1 { decoderAt emptyStructFile 200 with currentField := 0 } =
        .ok { mat := ⟨emptyStructFile, 296⟩, currentField := 0, arrayName := [65],
              fieldNames := [],
              output := [Event.dimension 2, Event.dimension 3, Event.named [65],
                         Event.numeric miDOUBLE] } ∧
      (ReadMatrixStruct sampleInflate 1 (decoderAt structFile 176)).map (fun d => d.fieldNames) =
        .ok [[97, 108, 112, 104, 97], [98, 101, 0, 0, 0], [99, 0, 0, 0, 0]] ∧
      (ReadMatrix sampleInflate 1
          { decoderAt nestedStructFile 200 with
            fieldNames := [[112, 0], [113, 0]], currentField := 0, arrayName := [115] }).map
          (fun d => d.currentField) =
        .ok 0 := by
  decide

/-- C7 (amended): let the field-name length `L` be positive, and let the
field-names element hold `k * L` bytes with `1 ≤ k < 2 ^ 31`. Started with an
empty list, `ReadMatrixStruct` succeeds and leaves exactly `k` names, the
`i`-th being the `i`-th chunk of `L` bytes of the element, kept whole (it is
printed cut at its first NUL), with the field index 0 and the cursor behind the
element. From then on, a matrix not of class struct that is read with the field
index `i < k` is printed under the `i`-th name and moves the index to `i + 1`
with the same list, and a matrix read with the index `k` fails with
`FieldIndexExceeded` as soon as its array flags are read. -/
theorem readMatrixStruct_then_field_walk
    (inflate : List Byte → Option (List Byte)) (fuel : Nat) (d : Decoder)
    (m1 m2 m3 : MatFile) (L k : Nat)
    (hL : 0 < L) (hL31 : L < 2 ^ 31) (hk : 0 < k) (hk31 : k < 2 ^ 31)
    (hempty : d.fieldNames = [])
    (h1 : d.mat.ReadDataElementHeader inflate fuel = .ok (⟨miINT32, 4⟩, m1))
    (h2 : m1.ReadPrimitive 4 = .ok (L, m2))
    (h3 : m2.ReadDataElementHeader inflate fuel = .ok (⟨miINT8, k * L⟩, m3))
    (hfit : m3.cursor + k * L ≤ m3.data.length) :
    ∃ d', ReadMatrixStruct inflate fuel d = .ok d' ∧
      d'.fieldNames.length = k ∧
      (∀ i, i < k →
        d'.fieldNames.getD i [] = (m3.data.drop (m3.cursor + i * L)).take L ∧
        (d'.fieldNames.getD i []).length = L) ∧
      d'.output = d.output ++ (List.range k).map (fun i =>
        Event.listedField i (cstr ((m3.data.drop (m3.cursor + i * L)).take L))) ∧
      d'.currentField = 0 ∧
      d'.mat = ⟨m3.data, m3.cursor + k * L⟩ ∧
      ∀ (fuel' : Nat) (e e1 : Decoder) (flags : MatArrayFlagsSubelement),
        e.fieldNames = d'.fieldNames →
        readArrayFlags inflate fuel' e = .ok (flags, e1) →
        (e.currentField < k → flags.matrixClass ≠ mxSTRUCT_CLASS →
          ∀ e', ReadMatrix inflate fuel' e = .ok e' →
            (∃ rest, e'.output = e.output ++
              Event.attributed (cstr e.arrayName)
                (cstr (d'.fieldNames.getD e.currentField [])) :: rest) ∧
            e'.currentField = e.currentField + 1 ∧ e'.fieldNames = d'.fieldNames) ∧
        (e.currentField = k → ReadMatrix inflate fuel' e = .error .FieldIndexExceeded) := by
  refine ⟨_, readMatrixStruct_eq inflate fuel d m1 m2 m3 L k hL hL31 hk31 h1 h2 h3 hfit,
    ?_, ?_, rfl, rfl, rfl, ?_⟩
  · simp [hempty]
  · intro i hi
    have hle : m3.cursor + i * L + L ≤ m3.data.length := by
      have : (i + 1) * L ≤ k * L := Nat.mul_le_mul_right L hi
      rw [Nat.succ_mul] at this
      omega
    simp only [hempty, List.nil_append]
    rw [List.getD_eq_getElem?_getD, List.getElem?_map, List.getElem?_range hi]
    simp only [Option.map_some', Option.getD_some, List.length_take, List.length_drop]
    exact ⟨trivial, by omega⟩
  · intro fuel' e e1 flags hnames hflags
    have hlen : e.fieldNames.length = k := by rw [hnames]; simp [hempty]
    refine ⟨?_, ?_⟩
    · intro hidx hclass e' hok
      have := readMatrix_attributes (by rw [hlen]; exact hidx) hflags hclass hok
      rw [hnames] at this
      exact this
    · intro hidx
      refine readMatrix_fieldIndexExceeded ?_ (by rw [hlen, hidx]) hflags
      intro hnil
      rw [hnil] at hlen
      simp at hlen
      omega


set_option maxRecDepth 1000000 in
/-- Witness of C7 (amended): in `structFile` the decoder stands at offset 176
in front of the field-name length 5 and of a field-names element of 15 bytes,
so that `L = 5` and `k = 3`. The run of `main` on that file prints the three
matrices that follow under `alpha`, `be` and `c`, and with a fourth matrix
behind them it fails with `FieldIndexExceeded`. -/
theorem readMatrixStruct_then_field_walk_witness :
    (0 < 5 ∧ 5 < 2 ^ 31 ∧ 0 < 3 ∧ 3 < 2 ^ 31 ∧
      (decoderAt structFile 176).fieldNames = [] ∧
      (decoderAt structFile 176).mat.ReadDataElementHeader sampleInflate 1 =
        .ok (⟨miINT32, 4⟩, ⟨structFile, 180⟩) ∧
      MatFile.ReadPrimitive ⟨structFile, 180⟩ 4 = .ok (5, ⟨structFile, 184⟩) ∧
      MatFile.ReadDataElementHeader sampleInflate 1 ⟨structFile, 184⟩ =
        .ok (⟨miINT8, 3 * 5⟩, ⟨structFile, 192⟩) ∧
      192 + 3 * 5 ≤ structFile.length) ∧
    (∃ d', ReadMatrixStruct sampleInflate 1 (decoderAt structFile 176) = .ok d' ∧
      d'.fieldNames.length = 3 ∧
      (∀ i, i < 3 →
        d'.fieldNames.getD i [] = (structFile.drop (192 + i * 5)).take 5 ∧
        (d'.fieldNames.getD i []).length = 5) ∧
      d'.output = (decoderAt structFile 176).output ++ (List.range 3).map (fun i =>
        Event.listedField i (cstr ((structFile.drop (192 + i * 5)).take 5))) ∧
      d'.currentField = 0 ∧
      d'.mat = ⟨structFile, 192 + 3 * 5⟩ ∧
      ∀ (fuel' : Nat) (e e1 : Decoder) (flags : MatArrayFlagsSubelement),
        e.fieldNames = d'.fieldNames →
        readArrayFlags sampleInflate fuel' e = .ok (flags, e1) →
        (e.currentField < 3 → flags.matrixClass ≠ mxSTRUCT_CLASS →
          ∀ e', ReadMatrix sampleInflate fuel' e = .ok e' →
            (∃ rest, e'.output = e.output ++
              Event.attributed (cstr e.arrayName)
                (cstr (d'.fieldNames.getD e.currentField [])) :: rest) ∧
            e'.currentField = e.currentField + 1 ∧ e'.fieldNames = d'.fieldNames) ∧
        (e.currentField = 3 → ReadMatrix sampleInflate fuel' e = .error .FieldIndexExceeded)) ∧
    (main sampleInflate 1 5 structFile).map (fun d => (d.mat.cursor, d.currentField, d.output)) =
      .ok (structFile.length, 3,
           [Event.dimension 1, Event.dimension 1, Event.named [115],
            Event.listedField 0 [97, 108, 112, 104, 97], Event.listedField 1 [98, 101],
            Event.listedField 2 [99],
            Event.attributed [115] [97, 108, 112, 104, 97],
            Event.dimension 1, Event.dimension 1, Event.numeric miDOUBLE,
            Event.attributed [115] [98, 101],
            Event.dimension 1, Event.dimension 1, Event.numeric miDOUBLE,
            Event.attributed [115] [99],
            Event.dimension 1, Event.dimension 1, Event.numeric miDOUBLE]) ∧
    main sampleInflate 1 6 structFileFour = .error .FieldIndexExceeded :=
  ⟨by decide,
   readMatrixStruct_then_field_walk sampleInflate 1 (decoderAt structFile 176)
     ⟨structFile, 180⟩ ⟨structFile, 184⟩ ⟨structFile, 192⟩ 5 3
     (by decide) (by decide) (by decide) (by decide) (by decide) (by decide) (by decide)
     (by decide) (by decide),
   by decide, by decide⟩

/-! ## A struct read after another struct -/

set_option maxRecDepth 1000000 in
/-- C8: `ReadMatrixStruct` pushes the new names behind the names that are
already in the list. Started at offset 176 of `structFile` with the list
holding the one name `x` and the index at 1, it leaves the four names `x`,
`alpha`, `be`, `c` and the index 0. In `nestedStructFile`, where the value of
`s.p` is a struct with the fields `a` and `b`, the run of `main` ends with the
list `p`, `q`, `a`, `b`, and prints the value of `a` under the name `p`, the
value of `b` under `q`, and the value of `s.q` under `a`. -/
theorem readMatrixStruct_extends_old_list :
    ReadMatrixStruct sampleInflate 1
        { decoderAt structFile 176 with fieldNames := [[120]], currentField := 1 } =
      .ok { mat := ⟨structFile, 207⟩, currentField := 0, arrayName := [],
            fieldNames := [[120], [97, 108, 112, 104, 97], [98, 101, 0, 0, 0], [99, 0, 0, 0, 0]],
            output := [Event.listedField 0 [97, 108, 112, 104, 97],
                       Event.listedField 1 [98, 101], Event.listedField 2 [99]] } ∧
    main sampleInflate 1 6 nestedStructFile =
      .ok { mat := ⟨nestedStructFile, nestedStructFile.length⟩, currentField := 3,
            arrayName := [115],
            fieldNames := [[112, 0], [113, 0], [97, 0], [98, 0]],
            output := [Event.dimension 1, Event.dimension 1, Event.named [115],
                       Event.listedField 0 [112], Event.listedField 1 [113],
                       Event.attributed [115] [112],
                       Event.dimension 1, Event.dimension 1,
                       Event.listedField 0 [97], Event.listedField 1 [98],
                       Event.attributed [115] [112],
                       Event.dimension 1, Event.dimension 1, Event.numeric miDOUBLE,
                       Event.attributed [115] [113],
                       Event.dimension 1, Event.dimension 1, Event.numeric miDOUBLE,
                       Event.attributed [115] [97],
                       Event.dimension 1, Event.dimension 1, Event.numeric miDOUBLE] } := by
  decide


/-! ## The errors of the header decoder -/

theorem readPrimitive_error {st : MatFile} {size : Nat} {err : MatError}
    (h : st.ReadPrimitive size = .error err) : err = .OutOfBounds := by
  simp only [MatFile.ReadPrimitive] at h
  split_ifs at h
  simpa using h.symm

theorem readMem_error {st : MatFile} {count : Nat} {err : MatError}
    (h : st.ReadMem count = .error err) : err = .OutOfBounds := by
  simp only [MatFile.ReadMem] at h
  split_ifs at h
  simpa using h.symm

theorem skip_error {st : MatFile} {n : Nat} {err : MatError}
    (h : st.Skip n = .error err) : err = .OutOfBounds := by
  unfold MatFile.Skip at h
  split_ifs at h
  simpa using h.symm

theorem readHeaderAtCursor_error {st : MatFile} {err : MatError}
    (h : st.readHeaderAtCursor = .error err) :
    err = .OutOfBounds ∨ err = .MisalignedElement := by
  unfold MatFile.readHeaderAtCursor at h
  simp only [bind, Except.bind, pure, Except.pure, throw, throwThe, MonadExceptOf.throw] at h
  split_ifs at h
  · right; simpa using h.symm
  all_goals
    left
    split at h
    · rename_i e1 he1
      have := readPrimitive_error he1
      simp_all
    · split at h
      · rename_i e2 he2
        have := readPrimitive_error he2
        simp_all
      · simp at h

theorem memcpyWithin_error {data : List Byte} {dst src len : Nat} {err : MatError}
    (h : memcpyWithin data dst src len = .error err) : err = .Fault := by
  unfold memcpyWithin at h
  split_ifs at h
  all_goals simp_all

theorem memcpyFrom_error {data : List Byte} {dst : Nat} {source : List Byte} {err : MatError}
    (h : memcpyFrom data dst source = .error err) : err = .Fault := by
  unfold memcpyFrom at h
  split_ifs at h
  all_goals simp_all

theorem inflateAndSplice_error {inflate : List Byte → Option (List Byte)} {st : MatFile}
    {header : MatDataElementHeader} {err : MatError}
    (h : st.inflateAndSplice inflate header = .error err) :
    err = .Fault ∨ err = .DecompressionFailed ∨ err = .InflationNotGrowing := by
  unfold MatFile.inflateAndSplice at h
  simp only [bind, Except.bind, pure, Except.pure, throw, throwThe, MonadExceptOf.throw] at h
  by_cases c1 : st.data.length < st.cursor + header.numberOfBytes
  · rw [if_pos c1] at h
    left; simpa using h.symm
  · rw [if_neg c1] at h
    generalize uncompress inflate _ _ = r at h
    cases r with
    | Z_OK uncompressed =>
      simp only [] at h
      split_ifs at h
      all_goals first
        | (left; simpa using h.symm)
        | (right; right; simpa using h.symm)
        | (generalize hr1 : memcpyWithin _ _ _ _ = r1 at h
           cases r1 with
           | error e1 =>
             have h1 := memcpyWithin_error hr1
             simp only [Except.error.injEq] at h
             left; rw [← h, h1]
           | ok v1 =>
             simp only [] at h
             generalize hr2 : memcpyFrom _ _ _ = r2 at h
             cases r2 with
             | error e2 =>
               have h2 := memcpyFrom_error hr2
               simp only [Except.error.injEq] at h
               left; rw [← h, h2]
             | ok v2 => simp at h)
    | Z_MEM_ERROR => right; left; simpa using h.symm
    | Z_BUF_ERROR => right; left; simpa using h.symm
    | Z_DATA_ERROR => right; left; simpa using h.symm

theorem readDataElementHeader_error (inflate : List Byte → Option (List Byte)) :
    ∀ (fuel : Nat) (st : MatFile) (err : MatError),
      MatFile.ReadDataElementHeader inflate fuel st = .error err →
      err = .OutOfBounds ∨ err = .MisalignedElement ∨ err = .Fault ∨
        err = .DecompressionFailed ∨ err = .InflationNotGrowing ∨ err = .FuelExhausted := by
  intro fuel
  induction fuel with
  | zero => intro st err h; simp [MatFile.ReadDataElementHeader] at h; simp [h]
  | succ n ih =>
    intro st err h
    rw [MatFile.ReadDataElementHeader] at h
    cases hh : st.readHeaderAtCursor with
    | error e =>
      simp only [hh, bind, Except.bind] at h
      have := readHeaderAtCursor_error hh
      simp_all
      tauto
    | ok v =>
      obtain ⟨hd, m⟩ := v
      simp only [hh, bind, Except.bind] at h
      split_ifs at h
      · cases hs : m.inflateAndSplice inflate hd with
        | error e =>
          simp only [hs] at h
          have := inflateAndSplice_error hs
          simp_all
          tauto
        | ok m' =>
          simp only [hs] at h
          exact ih _ _ h
      · simp [pure, Except.pure] at h


theorem readDataElementHeader_not_unsupported {inflate : List Byte → Option (List Byte)}
    {fuel : Nat} {st : MatFile} :
    MatFile.ReadDataElementHeader inflate fuel st ≠ .error .UnsupportedMatrixClass := by
  intro h
  have := readDataElementHeader_error inflate fuel st _ h
  simp at this

theorem readFieldNames_error (fieldNameLength : Nat) :
    ∀ (count i : Nat) (d : Decoder) (err : MatError),
      readFieldNames fieldNameLength count i d = .error err → err = .OutOfBounds := by
  intro count
  induction count with
  | zero => intro i d err h; simp [readFieldNames] at h
  | succ n ih =>
    intro i d err h
    rw [readFieldNames] at h
    cases hm : d.mat.ReadMem fieldNameLength with
    | error e =>
      simp only [hm, bind, Except.bind, Except.error.injEq] at h
      rw [← h]; exact readMem_error hm
    | ok w =>
      simp only [hm, bind, Except.bind] at h
      exact ih _ _ _ h

theorem readMatrixStruct_not_unsupported {inflate : List Byte → Option (List Byte)}
    {fuel : Nat} {d : Decoder} :
    ReadMatrixStruct inflate fuel d ≠ .error .UnsupportedMatrixClass := by
  intro h
  unfold ReadMatrixStruct at h
  cases hh : d.mat.ReadDataElementHeader inflate fuel with
  | error e =>
    simp only [hh, bind, Except.bind, Except.error.injEq] at h
    subst h
    exact readDataElementHeader_not_unsupported hh
  | ok v =>
    obtain ⟨hd, m⟩ := v
    simp only [hh, bind, Except.bind] at h
    split_ifs at h
    all_goals first
      | (simp [throw, throwThe, MonadExceptOf.throw, pure, Except.pure] at h; done)
      | skip
    simp only [pure, Except.pure] at h
    cases hp : m.ReadPrimitive 4 with
    | error e =>
      simp only [hp, Except.error.injEq] at h
      subst h
      have := readPrimitive_error hp
      simp at this
    | ok w =>
      obtain ⟨L, m2⟩ := w
      simp only [hp] at h
      cases hh2 : m2.ReadDataElementHeader inflate fuel with
      | error e =>
        simp only [hh2, Except.error.injEq] at h
        subst h
        exact readDataElementHeader_not_unsupported hh2
      | ok v2 =>
        obtain ⟨hd2, m3⟩ := v2
        simp only [hh2] at h
        split_ifs at h
        all_goals first
          | (simp [throw, throwThe, MonadExceptOf.throw, pure, Except.pure] at h)
          | skip
        generalize hr : readFieldNames _ _ _ _ = r at h
        cases r with
        | error e =>
          simp only [Except.error.injEq] at h
          subst h
          have := readFieldNames_error _ _ _ _ _ hr
          simp at this
        | ok d' => simp [pure, Except.pure] at h

theorem readMatrixChar_not_unsupported {inflate : List Byte → Option (List Byte)}
    {fuel : Nat} {d : Decoder} :
    ReadMatrixChar inflate fuel d ≠ .error .UnsupportedMatrixClass := by
  intro h
  unfold ReadMatrixChar at h
  cases hh : d.mat.ReadDataElementHeader inflate fuel with
  | error e =>
    simp only [hh, bind, Except.bind, Except.error.injEq] at h
    subst h
    exact readDataElementHeader_not_unsupported hh
  | ok v =>
    obtain ⟨hd, m⟩ := v
    simp only [hh, bind, Except.bind] at h
    split_ifs at h
    all_goals first
      | (simp [throw, throwThe, MonadExceptOf.throw, pure, Except.pure] at h; done)
      | skip
    simp only [pure, Except.pure] at h
    cases hm : m.ReadMem hd.numberOfBytes with
    | error e =>
      simp only [hm, Except.error.injEq] at h
      subst h
      have := readMem_error hm
      simp at this
    | ok w => simp [hm] at h

theorem readMatrixDouble_not_unsupported {inflate : List Byte → Option (List Byte)}
    {fuel : Nat} {d : Decoder} :
    ReadMatrixDouble inflate fuel d ≠ .error .UnsupportedMatrixClass := by
  intro h
  unfold ReadMatrixDouble at h
  cases hh : d.mat.ReadDataElementHeader inflate fuel with
  | error e =>
    simp only [hh, bind, Except.bind, Except.error.injEq] at h
    subst h
    exact readDataElementHeader_not_unsupported hh
  | ok v =>
    obtain ⟨hd, m⟩ := v
    simp only [hh, bind, Except.bind] at h
    split_ifs at h
    all_goals first
      | (simp [throw, throwThe, MonadExceptOf.throw, pure, Except.pure] at h; done)
      | skip
    simp only [pure, Except.pure] at h
    cases hm : m.Skip hd.numberOfBytes with
    | error e =>
      simp only [hm, Except.error.injEq] at h
      subst h
      have := skip_error hm
      simp at this
    | ok w => simp [hm] at h

/-- The numeric decoder reads one header, accepts it when its type has a
non-zero size, and moves the cursor over the declared number of bytes. -/
theorem readMatrixDouble_ok {inflate : List Byte → Option (List Byte)} {fuel : Nat}
    {d d' : Decoder} (h : ReadMatrixDouble inflate fuel d = .ok d') :
    ∃ header m, d.mat.ReadDataElementHeader inflate fuel = .ok (header, m) ∧
      MatDataTypeToSize header.dataType ≠ 0 ∧
      m.cursor + header.numberOfBytes ≤ m.data.length ∧
      d'.mat = ⟨m.data, m.cursor + header.numberOfBytes⟩ := by
  unfold ReadMatrixDouble at h
  cases hh : d.mat.ReadDataElementHeader inflate fuel with
  | error e => simp [hh, bind, Except.bind] at h
  | ok v =>
    obtain ⟨hd, m⟩ := v
    simp only [hh, bind, Except.bind] at h
    split_ifs at h with hsz
    refine ⟨hd, m, rfl, hsz, ?_⟩
    simp only [pure, Except.pure] at h
    unfold MatFile.Skip at h
    split_ifs at h with hfit
    simp only [pure, Except.pure, Except.ok.injEq] at h
    subst h
    exact ⟨hfit, rfl⟩


/-! ## The dispatch on the matrix class -/

theorem readMatrix_of_prologue {inflate : List Byte → Option (List Byte)} {fuel : Nat}
    {d d1 : Decoder} {flags : MatArrayFlagsSubelement}
    (hpro : readMatrixPrologue inflate fuel d = .ok (flags, d1)) :
    ReadMatrix inflate fuel d =
      if flags.matrixClass = mxSTRUCT_CLASS then ReadMatrixStruct inflate fuel d1
      else if flags.matrixClass = mxCHAR_CLASS then ReadMatrixChar inflate fuel d1
      else if flags.matrixClass = mxDOUBLE_CLASS then ReadMatrixDouble inflate fuel d1
      else .error .UnsupportedMatrixClass := by
  unfold ReadMatrix
  simp only [hpro, bind, Except.bind]
  rfl

set_option maxRecDepth 1000000 in
/-- C9, as stated, fails: in `sparseThenGarbage` the array flags are valid and
carry the class sparse, and the subelement behind them is tagged `miUINT32`;
`ReadMatrix` reads that header as the dimensions and fails with
`UnexpectedDataType`. -/
theorem sparse_with_bad_dimensions_is_unexpectedDataType :
    readArrayFlags sampleInflate 1 (decoderAt (sampleFileHeader ++ sparseThenGarbage) 136) =
        .ok (⟨mxSPARSE_CLASS, 0, 0, 1⟩, decoderAt (sampleFileHeader ++ sparseThenGarbage) 152) ∧
      ReadMatrix sampleInflate 1 (decoderAt (sampleFileHeader ++ sparseThenGarbage) 136) =
        .error .UnexpectedDataType := by
  decide

/-- C9 (amended): when the array flags are valid with the class sparse and the
field attribution passes, `ReadMatrix` reads the dimensions and the name before
it looks at the class: a failure of one of them is the failure of `ReadMatrix`,
and when both are valid `ReadMatrix` fails with `UnsupportedMatrixClass`. -/
theorem readMatrix_sparse (inflate : List Byte → Option (List Byte)) (fuel : Nat)
    (d d1 d2 : Decoder) (flags : MatArrayFlagsSubelement)
    (hflags : readArrayFlags inflate fuel d = .ok (flags, d1))
    (hclass : flags.matrixClass = mxSPARSE_CLASS)
    (hattr : attributeField d1 = .ok d2) :
    (∀ err, readDimensions inflate fuel d2 = .error err →
        ReadMatrix inflate fuel d = .error err) ∧
      (∀ d3 err, readDimensions inflate fuel d2 = .ok d3 →
        readArrayName inflate fuel d3 = .error err →
        ReadMatrix inflate fuel d = .error err) ∧
      (∀ d3 d4, readDimensions inflate fuel d2 = .ok d3 →
        readArrayName inflate fuel d3 = .ok d4 →
        ReadMatrix inflate fuel d = .error .UnsupportedMatrixClass) := by
  refine ⟨?_, ?_, ?_⟩
  · intro err hdims
    unfold ReadMatrix readMatrixPrologue
    simp only [hflags, hattr, hdims, bind, Except.bind]
  · intro d3 err hdims hname
    unfold ReadMatrix readMatrixPrologue
    simp only [hflags, hattr, hdims, hname, bind, Except.bind]
  · intro d3 d4 hdims hname
    have hpro : readMatrixPrologue inflate fuel d = .ok (flags, d4) := by
      unfold readMatrixPrologue
      simp only [hflags, hattr, hdims, hname, bind, Except.bind, pure, Except.pure]
    rw [readMatrix_of_prologue hpro, hclass]
    rfl

set_option maxRecDepth 1000000 in
/-- Witness of C9 (amended): the sparse matrix of `sparseMatrix`, read at
offset 136 behind the file header. -/
theorem readMatrix_sparse_witness :
    (readArrayFlags sampleInflate 1 (decoderAt (sampleFileHeader ++ sparseMatrix) 136) =
        .ok (⟨5, 0, 0, 1⟩, decoderAt (sampleFileHeader ++ sparseMatrix) 152) ∧
      (5 : Nat) = mxSPARSE_CLASS ∧
      attributeField (decoderAt (sampleFileHeader ++ sparseMatrix) 152) =
        .ok (decoderAt (sampleFileHeader ++ sparseMatrix) 152)) ∧
    ((∀ err, readDimensions sampleInflate 1 (decoderAt (sampleFileHeader ++ sparseMatrix) 152) =
          .error err →
        ReadMatrix sampleInflate 1 (decoderAt (sampleFileHeader ++ sparseMatrix) 136) =
          .error err) ∧
      (∀ d3 err,
        readDimensions sampleInflate 1 (decoderAt (sampleFileHeader ++ sparseMatrix) 152) =
          .ok d3 →
        readArrayName sampleInflate 1 d3 = .error err →
        ReadMatrix sampleInflate 1 (decoderAt (sampleFileHeader ++ sparseMatrix) 136) =
          .error err) ∧
      (∀ d3 d4,
        readDimensions sampleInflate 1 (decoderAt (sampleFileHeader ++ sparseMatrix) 152) =
          .ok d3 →
        readArrayName sampleInflate 1 d3 = .ok d4 →
        ReadMatrix sampleInflate 1 (decoderAt (sampleFileHeader ++ sparseMatrix) 136) =
          .error .UnsupportedMatrixClass)) :=
  ⟨by decide,
   readMatrix_sparse sampleInflate 1 (decoderAt (sampleFileHeader ++ sparseMatrix) 136)
     (decoderAt (sampleFileHeader ++ sparseMatrix) 152)
     (decoderAt (sampleFileHeader ++ sparseMatrix) 152) ⟨5, 0, 0, 1⟩
     (by decide) (by decide) (by decide)⟩

set_option maxRecDepth 1000000 in
/-- C10, as stated, fails for the class single (7): in `singleMatrix` the array
flags, the dimensions and the name are valid and the data element is of type
`miSINGLE` with 24 bytes, which the numeric decoder accepts when it is called
on it, yet `ReadMatrix` and the whole run fail with `UnsupportedMatrixClass`. -/
theorem single_class_is_unsupported :
    readMatrixPrologue sampleInflate 1 (decoderAt (sampleFileHeader ++ singleMatrix) 136) =
        .ok (⟨mxSINGLE_CLASS, 0, 0, 0⟩,
             { mat := ⟨sampleFileHeader ++ singleMatrix, 173⟩, currentField := 2 ^ 64 - 1,
               arrayName := [65], fieldNames := [],
               output := [Event.dimension 2, Event.dimension 3, Event.named [65]] }) ∧
      (ReadMatrixDouble sampleInflate 1
          (decoderAt (sampleFileHeader ++ singleMatrix) 173)).map (fun d => d.mat.cursor) =
        .ok (sampleFileHeader ++ singleMatrix).length ∧
      ReadMatrix sampleInflate 1 (decoderAt (sampleFileHeader ++ singleMatrix) 136) =
        .error .UnsupportedMatrixClass ∧
      main sampleInflate 1 2 (sampleFileHeader ++ singleMatrix) =
        .error .UnsupportedMatrixClass := by
  decide

/-- C10 (amended): when the array flags, the field attribution, the dimensions
and the name of a matrix are valid, `ReadMatrix` continues as the struct
decoder for class 2, as the char decoder for class 4 and as the numeric decoder
for class 6 (double) only; it fails with `UnsupportedMatrixClass` exactly for
every other class tag, the numeric classes 7 to 15 included. When the numeric
decoder succeeds it has read one data element whose type has a non-zero size
and has moved the cursor over its `numberOfBytes` bytes. -/
theorem readMatrix_dispatch (inflate : List Byte → Option (List Byte)) (fuel : Nat)
    (d d1 : Decoder) (flags : MatArrayFlagsSubelement)
    (hpro : readMatrixPrologue inflate fuel d = .ok (flags, d1)) :
    (flags.matrixClass = mxSTRUCT_CLASS →
        ReadMatrix inflate fuel d = ReadMatrixStruct inflate fuel d1) ∧
      (flags.matrixClass = mxCHAR_CLASS →
        ReadMatrix inflate fuel d = ReadMatrixChar inflate fuel d1) ∧
      (flags.matrixClass = mxDOUBLE_CLASS →
        ReadMatrix inflate fuel d = ReadMatrixDouble inflate fuel d1) ∧
      (ReadMatrix inflate fuel d = .error .UnsupportedMatrixClass ↔
        flags.matrixClass ≠ mxSTRUCT_CLASS ∧ flags.matrixClass ≠ mxCHAR_CLASS ∧
          flags.matrixClass ≠ mxDOUBLE_CLASS) ∧
      (∀ d2, ReadMatrixDouble inflate fuel d1 = .ok d2 →
        ∃ header m, d1.mat.ReadDataElementHeader inflate fuel = .ok (header, m) ∧
          MatDataTypeToSize header.dataType ≠ 0 ∧
          m.cursor + header.numberOfBytes ≤ m.data.length ∧
          d2.mat = ⟨m.data, m.cursor + header.numberOfBytes⟩) := by
  have hrm := readMatrix_of_prologue hpro
  refine ⟨?_, ?_, ?_, ?_, ?_⟩
  · intro hc
    rw [hrm, if_pos hc]
  · intro hc
    have h2 : flags.matrixClass ≠ mxSTRUCT_CLASS := by rw [hc]; decide
    rw [hrm, if_neg h2, if_pos hc]
  · intro hc
    have h2 : flags.matrixClass ≠ mxSTRUCT_CLASS := by rw [hc]; decide
    have h4 : flags.matrixClass ≠ mxCHAR_CLASS := by rw [hc]; decide
    rw [hrm, if_neg h2, if_neg h4, if_pos hc]
  · rw [hrm]
    constructor
    · intro h
      split_ifs at h with c2 c4 c6
      · exact absurd h readMatrixStruct_not_unsupported
      · exact absurd h readMatrixChar_not_unsupported
      · exact absurd h readMatrixDouble_not_unsupported
      · exact ⟨c2, c4, c6⟩
    · rintro ⟨c2, c4, c6⟩
      rw [if_neg c2, if_neg c4, if_neg c6]
  · intro d2 h
    exact readMatrixDouble_ok h

set_option maxRecDepth 1000000 in
/-- Witness of C10 (amended): the matrix of `sampleFile`, read at offset 136
behind the file header; its class is double. -/
theorem readMatrix_dispatch_witness :
    readMatrixPrologue sampleInflate 1 (decoderAt sampleFile 136) =
        .ok (⟨mxDOUBLE_CLASS, 0, 0, 0⟩,
             { mat := ⟨sampleFile, 173⟩, currentField := 2 ^ 64 - 1,
               arrayName := [65], fieldNames := [],
               output := [Event.dimension 2, Event.dimension 3, Event.named [65]] }) ∧
      ReadMatrix sampleInflate 1 (decoderAt sampleFile 136) =
        ReadMatrixDouble sampleInflate 1
          { mat := ⟨sampleFile, 173⟩, currentField := 2 ^ 64 - 1,
            arrayName := [65], fieldNames := [],
            output := [Event.dimension 2, Event.dimension 3, Event.named [65]] } ∧
      ReadMatrix sampleInflate 1 (decoderAt sampleFile 136) ≠ .error .UnsupportedMatrixClass :=
  have h := readMatrix_dispatch sampleInflate 1 (decoderAt sampleFile 136)
    { mat := ⟨sampleFile, 173⟩, currentField := 2 ^ 64 - 1,
      arrayName := [65], fieldNames := [],
      output := [Event.dimension 2, Event.dimension 3, Event.named [65]] }
    ⟨mxDOUBLE_CLASS, 0, 0, 0⟩ (by decide)
  ⟨by decide, h.2.2.1 rfl, fun hu => (h.2.2.2.1.mp hu).2.2 rfl⟩
/-! ## Successful header reads -/

theorem u32At_eq (data : List Byte) (pos : Nat) :
    u32At data pos = u16At data pos + 65536 * u16At data (pos + 2) := by
  have e1 : pos + 1 + 1 = pos + 2 := by omega
  have e2 : pos + 2 + 1 = pos + 3 := by omega
  simp only [u32At, u16At, readLE, e1, e2]
  omega

theorem u16At_lt (data : List Byte) (pos : Nat) : u16At data pos < 65536 := by
  rw [u16At_eq]
  have h1 := byteAt_lt data pos
  have h2 := byteAt_lt data (pos + 1)
  omega

/-- The header decoding depends on the cursor only through its alignment. -/
theorem readHeaderAtCursor_align (data : List Byte) (c : Nat) :
    MatFile.readHeaderAtCursor ⟨data, c⟩ =
      MatFile.readHeaderAtCursor ⟨data, MatFile.alignCursor c⟩ := by
  have h : MatFile.alignCursor (MatFile.alignCursor c) = MatFile.alignCursor c :=
    alignCursor_of_aligned _ (alignCursor_mod c)
  simp only [MatFile.readHeaderAtCursor, h]

/-- With the word at `s+2` zero and fewer than 8 bytes from `s`, the header
decoding fails with `OutOfBounds`. -/
theorem readHeaderAtCursor_normal_short (st : MatFile)
    (hpeek : u16At st.data (MatFile.alignCursor st.cursor + 2) = 0)
    (hshort : st.data.length < MatFile.alignCursor st.cursor + 8) :
    st.readHeaderAtCursor = .error .OutOfBounds := by
  have hmod := alignCursor_mod st.cursor
  have h8 : ¬ MatFile.alignCursor st.cursor + 4 + 4 ≤ st.data.length := by omega
  by_cases h4 : MatFile.alignCursor st.cursor + 4 ≤ st.data.length
  · simp [MatFile.readHeaderAtCursor, MatFile.ReadPrimitive, hmod, hpeek, h4, h8,
      bind, Except.bind, pure, Except.pure]
  · simp [MatFile.readHeaderAtCursor, MatFile.ReadPrimitive, hmod, hpeek, h4,
      bind, Except.bind, pure, Except.pure]

/-- With the word at `s+2` not zero and fewer than 4 bytes from `s`, the header
decoding fails with `OutOfBounds`. -/
theorem readHeaderAtCursor_small_short (st : MatFile)
    (hpeek : u16At st.data (MatFile.alignCursor st.cursor + 2) ≠ 0)
    (hshort : st.data.length < MatFile.alignCursor st.cursor + 4) :
    st.readHeaderAtCursor = .error .OutOfBounds := by
  have hmod := alignCursor_mod st.cursor
  have h4 : ¬ MatFile.alignCursor st.cursor + 2 + 2 ≤ st.data.length := by omega
  simp only [u16At] at hpeek
  by_cases h2 : MatFile.alignCursor st.cursor + 2 ≤ st.data.length
  · simp [MatFile.readHeaderAtCursor, MatFile.ReadPrimitive, hmod, hpeek, h2, h4, u16At,
      bind, Except.bind, pure, Except.pure]
  · simp [MatFile.readHeaderAtCursor, MatFile.ReadPrimitive, hmod, hpeek, h2, u16At,
      bind, Except.bind, pure, Except.pure]

/-- A successful header decoding keeps the buffer and has read, at the aligned
cursor `s`, either two 16-bit words (the word at `s+2` is not zero) or two
32-bit words (the word at `s+2` is zero). -/
theorem readHeaderAtCursor_ok {st st' : MatFile} {h : MatDataElementHeader}
    (hok : st.readHeaderAtCursor = .ok (h, st')) :
    (u16At st.data (MatFile.alignCursor st.cursor + 2) ≠ 0 ∧
        h = ⟨u16At st.data (MatFile.alignCursor st.cursor),
             u16At st.data (MatFile.alignCursor st.cursor + 2)⟩ ∧
        st' = ⟨st.data, MatFile.alignCursor st.cursor + 4⟩ ∧
        MatFile.alignCursor st.cursor + 4 ≤ st.data.length) ∨
      (u16At st.data (MatFile.alignCursor st.cursor + 2) = 0 ∧
        h = ⟨u32At st.data (MatFile.alignCursor st.cursor),
             u32At st.data (MatFile.alignCursor st.cursor + 4)⟩ ∧
        st' = ⟨st.data, MatFile.alignCursor st.cursor + 8⟩ ∧
        MatFile.alignCursor st.cursor + 8 ≤ st.data.length) := by
  by_cases hpeek : u16At st.data (MatFile.alignCursor st.cursor + 2) = 0
  · right
    by_cases hfit : MatFile.alignCursor st.cursor + 8 ≤ st.data.length
    · rw [readHeaderAtCursor_normal st hfit hpeek] at hok
      simp only [Except.ok.injEq, Prod.mk.injEq] at hok
      exact ⟨hpeek, hok.1.symm, hok.2.symm, hfit⟩
    · rw [readHeaderAtCursor_normal_short st hpeek (by omega)] at hok
      cases hok
  · left
    by_cases hfit : MatFile.alignCursor st.cursor + 4 ≤ st.data.length
    · rw [readHeaderAtCursor_small st hfit hpeek] at hok
      simp only [Except.ok.injEq, Prod.mk.injEq] at hok
      exact ⟨hpeek, hok.1.symm, hok.2.symm, hfit⟩
    · rw [readHeaderAtCursor_small_short st hpeek (by omega)] at hok
      cases hok

/-- A successful splice has taken 8 from a cursor of at least 8. -/
theorem inflateAndSplice_ok {inflate : List Byte → Option (List Byte)} {st st' : MatFile}
    {header : MatDataElementHeader}
    (hok : st.inflateAndSplice inflate header = .ok st') :
    8 ≤ st.cursor ∧ st'.cursor = st.cursor - 8 := by
  unfold MatFile.inflateAndSplice at hok
  simp only [bind, Except.bind, pure, Except.pure, throw, throwThe, MonadExceptOf.throw] at hok
  by_cases c1 : st.data.length < st.cursor + header.numberOfBytes
  · rw [if_pos c1] at hok; cases hok
  · rw [if_neg c1] at hok
    generalize uncompress inflate _ _ = r at hok
    cases r with
    | Z_OK uncompressed =>
      simp only [] at hok
      split_ifs at hok with c2 c3
      generalize memcpyWithin _ _ _ _ = r1 at hok
      cases r1 with
      | error e1 => cases hok
      | ok v1 =>
        simp only [] at hok
        generalize memcpyFrom _ _ _ = r2 at hok
        cases r2 with
        | error e2 => cases hok
        | ok v2 =>
          simp only [Except.ok.injEq] at hok
          subst hok
          unfold sizeofMatDataElementHeader at c3
          exact ⟨by omega, rfl⟩
    | Z_MEM_ERROR => cases hok
    | Z_BUF_ERROR => cases hok
    | Z_DATA_ERROR => cases hok

/-- A successful `ReadDataElementHeader` returns a header that is not the
compressed tag, decoded from the final buffer at the aligned position of the
starting cursor: every splice leaves a cursor with the same alignment. -/
theorem readDataElementHeader_ok (inflate : List Byte → Option (List Byte)) :
    ∀ (fuel : Nat) (st st' : MatFile) (h : MatDataElementHeader),
      MatFile.ReadDataElementHeader inflate fuel st = .ok (h, st') →
      h.dataType ≠ miCOMPRESSED ∧
        MatFile.readHeaderAtCursor ⟨st'.data, MatFile.alignCursor st.cursor⟩ = .ok (h, st') := by
  intro fuel
  induction fuel with
  | zero => intro st st' h hok; simp [MatFile.ReadDataElementHeader] at hok
  | succ n ih =>
    intro st st' h hok
    rw [MatFile.ReadDataElementHeader] at hok
    cases hh : st.readHeaderAtCursor with
    | error e => simp [hh, bind, Except.bind] at hok
    | ok v =>
      obtain ⟨h1, st1⟩ := v
      simp only [hh, bind, Except.bind] at hok
      split_ifs at hok with hc
      · cases hs : st1.inflateAndSplice inflate h1 with
        | error e => simp [hs] at hok
        | ok st2 =>
          simp only [hs] at hok
          obtain ⟨hne, hrd⟩ := ih _ _ _ hok
          refine ⟨hne, ?_⟩
          obtain ⟨h8, hcur⟩ := inflateAndSplice_ok hs
          have hmod := alignCursor_mod st.cursor
          have halign : MatFile.alignCursor st2.cursor = MatFile.alignCursor st.cursor := by
            rcases readHeaderAtCursor_ok hh with ⟨-, -, hst1, -⟩ | ⟨-, -, hst1, -⟩
            · rw [hcur, hst1]
              simp only
              unfold MatFile.alignCursor at hmod ⊢
              rw [hst1] at h8
              simp only [MatFile.alignCursor] at h8
              omega
            · rw [hcur, hst1]
              simp only
              unfold MatFile.alignCursor at hmod ⊢
              omega
          rw [← halign]
          exact hrd
      · simp only [pure, Except.pure, Except.ok.injEq, Prod.mk.injEq] at hok
        obtain ⟨rfl, rfl⟩ := hok
        refine ⟨hc, ?_⟩
        have hdata : st1.data = st.data := by
          rcases readHeaderAtCursor_ok hh with ⟨-, -, hst1, -⟩ | ⟨-, -, hst1, -⟩ <;> rw [hst1]
        rw [hdata, ← readHeaderAtCursor_align]
        exact hh

/-! ## The cursor after each operation -/

theorem readPrimitive_ok {st st' : MatFile} {size v : Nat}
    (h : st.ReadPrimitive size = .ok (v, st')) :
    v = readLE st.data st.cursor size ∧ st' = ⟨st.data, st.cursor + size⟩ ∧
      st.cursor + size ≤ st.data.length := by
  simp only [MatFile.ReadPrimitive] at h
  split_ifs at h with hfit
  simp only [Except.ok.injEq, Prod.mk.injEq] at h
  exact ⟨h.1.symm, h.2.symm, hfit⟩

theorem readMem_ok {st st' : MatFile} {count : Nat} {buffer : List Byte}
    (h : st.ReadMem count = .ok (buffer, st')) :
    buffer = (st.data.drop st.cursor).take count ∧ st' = ⟨st.data, st.cursor + count⟩ ∧
      st.cursor + count ≤ st.data.length := by
  simp only [MatFile.ReadMem] at h
  split_ifs at h with hfit
  simp only [Except.ok.injEq, Prod.mk.injEq] at h
  exact ⟨h.1.symm, h.2.symm, hfit⟩

theorem skip_ok_iff (st st' : MatFile) (n : Nat) :
    st.Skip n = .ok st' ↔ st.cursor + n ≤ st.data.length ∧ st' = ⟨st.data, st.cursor + n⟩ := by
  unfold MatFile.Skip
  constructor
  · intro h
    split_ifs at h with hfit
    simp only [Except.ok.injEq] at h
    exact ⟨hfit, h.symm⟩
  · rintro ⟨hfit, rfl⟩
    rw [if_pos hfit]

/-- A successful `ReadDataElementHeader` ends 4 or 8 bytes behind the aligned
position of the starting cursor, inside the final buffer. -/
theorem readDataElementHeader_cursor {inflate : List Byte → Option (List Byte)} {fuel : Nat}
    {st st' : MatFile} {h : MatDataElementHeader}
    (hok : MatFile.ReadDataElementHeader inflate fuel st = .ok (h, st')) :
    (st'.cursor = MatFile.alignCursor st.cursor + 4 ∨
        st'.cursor = MatFile.alignCursor st.cursor + 8) ∧
      st.cursor + 4 ≤ st'.cursor ∧ st'.cursor ≤ st'.data.length := by
  obtain ⟨-, hrd⟩ := readDataElementHeader_ok inflate fuel st st' h hok
  have hal : MatFile.alignCursor (MatFile.alignCursor st.cursor) = MatFile.alignCursor st.cursor :=
    alignCursor_of_aligned _ (alignCursor_mod st.cursor)
  have hge := alignCursor_ge st.cursor
  rcases readHeaderAtCursor_ok hrd with ⟨-, -, hst, hfit⟩ | ⟨-, -, hst, hfit⟩
  · simp only [hal] at hst hfit
    have hc : st'.cursor = MatFile.alignCursor st.cursor + 4 := by rw [hst]
    exact ⟨Or.inl hc, by omega, by omega⟩
  · simp only [hal] at hst hfit
    have hc : st'.cursor = MatFile.alignCursor st.cursor + 8 := by rw [hst]
    exact ⟨Or.inr hc, by omega, by omega⟩

theorem readExtents_cursor : ∀ (n : Nat) (d d' : Decoder), readExtents n d = .ok d' →
    d'.mat.data = d.mat.data ∧ d'.mat.cursor = d.mat.cursor + 4 * n ∧
      (0 < n → d'.mat.cursor ≤ d'.mat.data.length) := by
  intro n
  induction n with
  | zero =>
    intro d d' h
    simp [readExtents] at h
    subst h
    exact ⟨rfl, rfl, fun h => absurd h (by omega)⟩
  | succ n ih =>
    intro d d' h
    rw [readExtents] at h
    cases hp : d.mat.ReadPrimitive 4 with
    | error err => simp [hp, bind, Except.bind] at h
    | ok w =>
      obtain ⟨v, m⟩ := w
      simp only [hp, bind, Except.bind] at h
      obtain ⟨-, hm, hfit⟩ := readPrimitive_ok hp
      obtain ⟨a, b, c⟩ := ih _ _ h
      simp only [hm] at a b c
      refine ⟨a, by rw [b]; omega, fun _ => ?_⟩
      rcases Nat.eq_zero_or_pos n with hz | hpos
      · subst hz
        rw [b, a]; omega
      · exact c hpos

theorem readFieldNames_cursor (fieldNameLength : Nat) :
    ∀ (count i : Nat) (d d' : Decoder), readFieldNames fieldNameLength count i d = .ok d' →
      d'.mat.data = d.mat.data ∧ d'.mat.cursor = d.mat.cursor + count * fieldNameLength ∧
        (0 < count → d'.mat.cursor ≤ d'.mat.data.length) := by
  intro count
  induction count with
  | zero =>
    intro i d d' h
    simp [readFieldNames] at h
    subst h
    exact ⟨rfl, by simp, fun h => absurd h (by omega)⟩
  | succ n ih =>
    intro i d d' h
    rw [readFieldNames] at h
    cases hp : d.mat.ReadMem fieldNameLength with
    | error err => simp [hp, bind, Except.bind] at h
    | ok w =>
      obtain ⟨v, m⟩ := w
      simp only [hp, bind, Except.bind] at h
      obtain ⟨-, hm, hfit⟩ := readMem_ok hp
      obtain ⟨a, b, c⟩ := ih _ _ _ h
      simp only [hm] at a b c
      have hmul : (n + 1) * fieldNameLength = n * fieldNameLength + fieldNameLength :=
        Nat.succ_mul n fieldNameLength
      refine ⟨a, by rw [b, hmul]; omega, fun _ => ?_⟩
      rcases Nat.eq_zero_or_pos n with hz | hpos
      · subst hz
        rw [b, a]; simp only [Nat.zero_mul]; omega
      · exact c hpos

/-! ## The subelements of a matrix -/

/-- The array-flags step succeeds exactly when the header resolves to type
`miUINT32` with 8 bytes and the 8 bytes lie in the buffer; the flags are then
the bytes of the payload and the cursor stands behind them. -/
theorem readArrayFlags_ok_iff (inflate : List Byte → Option (List Byte)) (fuel : Nat)
    (d d' : Decoder) (flags : MatArrayFlagsSubelement) :
    readArrayFlags inflate fuel d = .ok (flags, d') ↔
      ∃ m, d.mat.ReadDataElementHeader inflate fuel = .ok (⟨miUINT32, 8⟩, m) ∧
        m.cursor + 8 ≤ m.data.length ∧
        flags = { matrixClass := byteAt m.data m.cursor,
                  flags := byteAt m.data (m.cursor + 1),
                  undefined := u16At m.data (m.cursor + 2),
                  maxNonZero := u32At m.data (m.cursor + 4) } ∧
        d' = { d with mat := ⟨m.data, m.cursor + 8⟩ } := by
  constructor
  · intro h
    unfold readArrayFlags at h
    cases hh : d.mat.ReadDataElementHeader inflate fuel with
    | error err => simp [hh, bind, Except.bind] at h
    | ok v =>
      obtain ⟨hd, m⟩ := v
      simp only [hh, bind, Except.bind] at h
      split_ifs at h with ht hn
      all_goals first
        | (simp [throw, throwThe, MonadExceptOf.throw, pure, Except.pure] at h; done)
        | skip
      simp only [pure, Except.pure] at h
      cases hp : m.ReadPrimitive sizeofMatArrayFlagsSubelement with
      | error err => simp [hp] at h
      | ok w =>
        obtain ⟨v, m'⟩ := w
        simp only [hp, Except.ok.injEq, Prod.mk.injEq] at h
        obtain ⟨-, hm', hfit⟩ := readPrimitive_ok hp
        unfold sizeofMatArrayFlagsSubelement at hm' hfit
        have hdt : hd.dataType = miUINT32 := by simpa using ht
        have hnb : hd.numberOfBytes = 8 := by simpa using hn
        refine ⟨m, ?_, hfit, h.1.symm, ?_⟩
        · cases hd; simp only at hdt hnb; rw [hdt, hnb]
        · rw [← h.2, hm']
  · rintro ⟨m, hh, hfit, rfl, rfl⟩
    have hp : m.ReadPrimitive sizeofMatArrayFlagsSubelement =
        .ok (readLE m.data m.cursor 8, ⟨m.data, m.cursor + 8⟩) := by
      simp [MatFile.ReadPrimitive, sizeofMatArrayFlagsSubelement, hfit]
    unfold readArrayFlags
    simp only [hh, hp, bind, Except.bind, pure, Except.pure, ne_eq, not_true_eq_false,
      if_false]

/-- The failures of the array-flags step, in the order of the source. -/
theorem readArrayFlags_error_cases (inflate : List Byte → Option (List Byte)) (fuel : Nat)
    (d : Decoder) :
    (∀ err, d.mat.ReadDataElementHeader inflate fuel = .error err →
        readArrayFlags inflate fuel d = .error err) ∧
      (∀ h m, d.mat.ReadDataElementHeader inflate fuel = .ok (h, m) →
        (h.dataType ≠ miUINT32 → readArrayFlags inflate fuel d = .error .UnexpectedDataType) ∧
        (h.dataType = miUINT32 → h.numberOfBytes ≠ 8 →
          readArrayFlags inflate fuel d = .error .InvalidLength) ∧
        (h.dataType = miUINT32 → h.numberOfBytes = 8 → m.data.length < m.cursor + 8 →
          readArrayFlags inflate fuel d = .error .OutOfBounds)) := by
  refine ⟨?_, ?_⟩
  · intro err hh
    unfold readArrayFlags
    simp only [hh, bind, Except.bind]
  · intro h m hh
    refine ⟨?_, ?_, ?_⟩
    · intro ht
      unfold readArrayFlags
      simp only [hh, bind, Except.bind, ht, ne_eq, not_false_eq_true, if_true]
    · intro ht hn
      unfold readArrayFlags
      simp only [hh, bind, Except.bind, ht, hn, ne_eq, not_true_eq_false, if_false,
        not_false_eq_true, if_true, pure, Except.pure]
    · intro ht hn hshort
      have hp : m.ReadPrimitive sizeofMatArrayFlagsSubelement = .error .OutOfBounds := by
        simp only [MatFile.ReadPrimitive, sizeofMatArrayFlagsSubelement]
        rw [if_neg (by omega)]
      unfold readArrayFlags
      simp only [hh, hp, bind, Except.bind, ht, hn, ne_eq, not_true_eq_false, if_false,
        pure, Except.pure]

theorem readMatrix_of_arrayFlags_error {inflate : List Byte → Option (List Byte)} {fuel : Nat}
    {d : Decoder} {err : MatError} (h : readArrayFlags inflate fuel d = .error err) :
    ReadMatrix inflate fuel d = .error err := by
  unfold ReadMatrix readMatrixPrologue
  simp only [h, bind, Except.bind]

theorem readDimensions_ok {inflate : List Byte → Option (List Byte)} {fuel : Nat}
    {d d' : Decoder} (h : readDimensions inflate fuel d = .ok d') :
    ∃ hd m, d.mat.ReadDataElementHeader inflate fuel = .ok (hd, m) ∧
      hd.dataType = miINT32 ∧
      d'.mat = ⟨m.data, m.cursor + 4 * (hd.numberOfBytes / 4)⟩ ∧
      m.cursor + 4 * (hd.numberOfBytes / 4) ≤ m.data.length := by
  unfold readDimensions at h
  cases hh : d.mat.ReadDataElementHeader inflate fuel with
  | error err => simp [hh, bind, Except.bind] at h
  | ok v =>
    obtain ⟨hd, m⟩ := v
    simp only [hh, bind, Except.bind] at h
    split_ifs at h with ht
    obtain ⟨a, b, c⟩ := readExtents_cursor _ _ _ h
    obtain ⟨-, -, hin⟩ := readDataElementHeader_cursor hh
    simp only at a b c
    refine ⟨hd, m, rfl, by simpa using ht, ?_, ?_⟩
    · cases hm : d'.mat
      simp only [hm] at a b
      rw [a, b]
    · rcases Nat.eq_zero_or_pos (hd.numberOfBytes / 4) with hz | hpos
      · rw [hz]; omega
      · have := c hpos
        rw [b, a] at this
        exact this

/-- The name step after a header `hd` that left the file at `m`: any type but
`miINT8` is refused; with length 0 only the file moves on; with a positive
length the bytes become the current array name. -/
theorem readArrayName_cases (inflate : List Byte → Option (List Byte)) (fuel : Nat)
    (d : Decoder) (hd : MatDataElementHeader) (m : MatFile)
    (hh : d.mat.ReadDataElementHeader inflate fuel = .ok (hd, m)) :
    (hd.dataType ≠ miINT8 → readArrayName inflate fuel d = .error .UnexpectedDataType) ∧
      (hd.dataType = miINT8 → hd.numberOfBytes = 0 →
        readArrayName inflate fuel d = .ok { d with mat := m }) ∧
      (hd.dataType = miINT8 → 0 < hd.numberOfBytes →
        m.cursor + hd.numberOfBytes ≤ m.data.length →
        readArrayName inflate fuel d =
          .ok { d with
                mat := ⟨m.data, m.cursor + hd.numberOfBytes⟩,
                arrayName := (m.data.drop m.cursor).take hd.numberOfBytes,
                output := d.output ++
                  [Event.named (cstr ((m.data.drop m.cursor).take hd.numberOfBytes))] }) ∧
      (hd.dataType = miINT8 → 0 < hd.numberOfBytes →
        m.data.length < m.cursor + hd.numberOfBytes →
        readArrayName inflate fuel d = .error .OutOfBounds) := by
  refine ⟨?_, ?_, ?_, ?_⟩
  · intro ht
    unfold readArrayName
    simp only [hh, bind, Except.bind, ht, ne_eq, not_false_eq_true, if_true]
  · intro ht hn
    unfold readArrayName
    simp only [hh, bind, Except.bind, ht, hn, ne_eq, not_true_eq_false, if_false,
      pure, Except.pure, gt_iff_lt, Nat.lt_irrefl]
  · intro ht hn hfit
    unfold readArrayName
    simp only [hh, bind, Except.bind, ht, ne_eq, not_true_eq_false, if_false,
      pure, Except.pure, gt_iff_lt, hn, if_true, MatFile.ReadMem, hfit]
  · intro ht hn hshort
    have hnot : ¬ m.cursor + hd.numberOfBytes ≤ m.data.length := by omega
    unfold readArrayName
    simp only [hh, bind, Except.bind, ht, ne_eq, not_true_eq_false, if_false,
      pure, Except.pure, gt_iff_lt, hn, if_true, MatFile.ReadMem, hnot]

/-- The char decoder after a header `hd` that left the file at `m`: any type
but `miUTF8` is refused; otherwise `numberOfBytes` bytes are read as the
text. -/
theorem readMatrixChar_cases (inflate : List Byte → Option (List Byte)) (fuel : Nat)
    (d : Decoder) (hd : MatDataElementHeader) (m : MatFile)
    (hh : d.mat.ReadDataElementHeader inflate fuel = .ok (hd, m)) :
    (hd.dataType ≠ miUTF8 → ReadMatrixChar inflate fuel d = .error .UnexpectedDataType) ∧
      (hd.dataType = miUTF8 → m.cursor + hd.numberOfBytes ≤ m.data.length →
        ReadMatrixChar inflate fuel d =
          .ok { d with
                mat := ⟨m.data, m.cursor + hd.numberOfBytes⟩,
                output := d.output ++
                  [Event.text hd.dataType
                    (cstr ((m.data.drop m.cursor).take hd.numberOfBytes))] }) ∧
      (hd.dataType = miUTF8 → m.data.length < m.cursor + hd.numberOfBytes →
        ReadMatrixChar inflate fuel d = .error .OutOfBounds) := by
  refine ⟨?_, ?_, ?_⟩
  · intro ht
    unfold ReadMatrixChar
    simp only [hh, bind, Except.bind, ht, ne_eq, not_false_eq_true, if_true]
  · intro ht hfit
    unfold ReadMatrixChar
    simp only [hh, bind, Except.bind, ht, ne_eq, not_true_eq_false, if_false,
      pure, Except.pure, MatFile.ReadMem, hfit, if_true]
  · intro ht hshort
    have hnot : ¬ m.cursor + hd.numberOfBytes ≤ m.data.length := by omega
    unfold ReadMatrixChar
    simp only [hh, bind, Except.bind, ht, ne_eq, not_true_eq_false, if_false,
      pure, Except.pure, MatFile.ReadMem, hnot]

/-- The numeric decoder after a header `hd` that left the file at `m`: a type
of size 0 is refused; otherwise `numberOfBytes` bytes are skipped. -/
theorem readMatrixDouble_cases (inflate : List Byte → Option (List Byte)) (fuel : Nat)
    (d : Decoder) (hd : MatDataElementHeader) (m : MatFile)
    (hh : d.mat.ReadDataElementHeader inflate fuel = .ok (hd, m)) :
    (MatDataTypeToSize hd.dataType = 0 →
        ReadMatrixDouble inflate fuel d = .error .UnexpectedDataType) ∧
      (MatDataTypeToSize hd.dataType ≠ 0 → m.cursor + hd.numberOfBytes ≤ m.data.length →
        ReadMatrixDouble inflate fuel d =
          .ok { d with
                mat := ⟨m.data, m.cursor + hd.numberOfBytes⟩,
                output := d.output ++ [Event.numeric hd.dataType] }) ∧
      (MatDataTypeToSize hd.dataType ≠ 0 → m.data.length < m.cursor + hd.numberOfBytes →
        ReadMatrixDouble inflate fuel d = .error .OutOfBounds) := by
  refine ⟨?_, ?_, ?_⟩
  · intro ht
    unfold ReadMatrixDouble
    simp only [hh, bind, Except.bind, ht, if_true]
  · intro ht hfit
    unfold ReadMatrixDouble
    simp only [hh, bind, Except.bind, ht, if_false, pure, Except.pure, MatFile.Skip, hfit,
      if_true]
  · intro ht hshort
    have hnot : ¬ m.cursor + hd.numberOfBytes ≤ m.data.length := by omega
    unfold ReadMatrixDouble
    simp only [hh, bind, Except.bind, ht, if_false, pure, Except.pure, MatFile.Skip, hnot]

theorem matDataTypeToSize_table (t : Nat) :
    MatDataTypeToSize t =
      if t = 1 ∨ t = 2 then 1
      else if t = 3 ∨ t = 4 then 2
      else if t = 5 ∨ t = 6 ∨ t = 7 then 4
      else if t = 9 ∨ t = 12 ∨ t = 13 then 8
      else 0 := by
  unfold MatDataTypeToSize miINT8 miUINT8 miINT16 miUINT16 miINT32 miUINT32 miSINGLE miDOUBLE
    miINT64 miUINT64
  split_ifs <;> first | rfl | omega

theorem matDataTypeToSize_ne_zero_iff (t : Nat) :
    MatDataTypeToSize t ≠ 0 ↔ t ∈ [1, 2, 3, 4, 5, 6, 7, 9, 12, 13] := by
  rw [matDataTypeToSize_table]
  simp only [List.mem_cons, List.mem_singleton, List.not_mem_nil, or_false]
  split_ifs <;> omega

/-! ## The cursor never moves back and stays in the buffer -/

theorem readArrayFlags_cursor {inflate : List Byte → Option (List Byte)} {fuel : Nat}
    {d d' : Decoder} {flags : MatArrayFlagsSubelement}
    (h : readArrayFlags inflate fuel d = .ok (flags, d')) :
    d.mat.cursor + 4 ≤ d'.mat.cursor ∧ d'.mat.cursor ≤ d'.mat.data.length := by
  obtain ⟨m, hh, hfit, -, rfl⟩ := (readArrayFlags_ok_iff inflate fuel d d' flags).mp h
  obtain ⟨-, hadv, -⟩ := readDataElementHeader_cursor hh
  simp only
  omega

theorem attributeField_mat {d d' : Decoder} (h : attributeField d = .ok d') :
    d'.mat = d.mat := by
  unfold attributeField at h
  split_ifs at h
  all_goals
    simp only [Except.ok.injEq] at h
    subst h
    rfl

theorem readDimensions_cursor {inflate : List Byte → Option (List Byte)} {fuel : Nat}
    {d d' : Decoder} (h : readDimensions inflate fuel d = .ok d') :
    d.mat.cursor + 4 ≤ d'.mat.cursor ∧ d'.mat.cursor ≤ d'.mat.data.length := by
  obtain ⟨hd, m, hh, -, hmat, hfit⟩ := readDimensions_ok h
  obtain ⟨-, hadv, -⟩ := readDataElementHeader_cursor hh
  rw [hmat]
  simp only
  omega

theorem readArrayName_cursor {inflate : List Byte → Option (List Byte)} {fuel : Nat}
    {d d' : Decoder} (h : readArrayName inflate fuel d = .ok d') :
    d.mat.cursor + 4 ≤ d'.mat.cursor ∧ d'.mat.cursor ≤ d'.mat.data.length := by
  unfold readArrayName at h
  cases hh : d.mat.ReadDataElementHeader inflate fuel with
  | error err => simp [hh, bind, Except.bind] at h
  | ok v =>
    obtain ⟨hd, m⟩ := v
    obtain ⟨-, hadv, hin⟩ := readDataElementHeader_cursor hh
    simp only [hh, bind, Except.bind] at h
    split_ifs at h
    · cases hm : m.ReadMem hd.numberOfBytes with
      | error err => simp [hm, pure, Except.pure] at h
      | ok w =>
        obtain ⟨-, hm', hfit⟩ := readMem_ok hm
        simp [hm, pure, Except.pure] at h
        subst h
        rw [hm']
        simp only
        omega
    · simp [pure, Except.pure] at h
      subst h
      exact ⟨hadv, hin⟩

theorem readMatrixChar_cursor {inflate : List Byte → Option (List Byte)} {fuel : Nat}
    {d d' : Decoder} (h : ReadMatrixChar inflate fuel d = .ok d') :
    d.mat.cursor + 4 ≤ d'.mat.cursor ∧ d'.mat.cursor ≤ d'.mat.data.length := by
  unfold ReadMatrixChar at h
  cases hh : d.mat.ReadDataElementHeader inflate fuel with
  | error err => simp [hh, bind, Except.bind] at h
  | ok v =>
    obtain ⟨hd, m⟩ := v
    obtain ⟨-, hadv, hin⟩ := readDataElementHeader_cursor hh
    simp only [hh, bind, Except.bind] at h
    split_ifs at h
    cases hm : m.ReadMem hd.numberOfBytes with
    | error err => simp [hm, pure, Except.pure] at h
    | ok w =>
      obtain ⟨-, hm', hfit⟩ := readMem_ok hm
      simp [hm, pure, Except.pure] at h
      subst h
      rw [hm']
      simp only
      omega

theorem readMatrixDouble_cursor {inflate : List Byte → Option (List Byte)} {fuel : Nat}
    {d d' : Decoder} (h : ReadMatrixDouble inflate fuel d = .ok d') :
    d.mat.cursor + 4 ≤ d'.mat.cursor ∧ d'.mat.cursor ≤ d'.mat.data.length := by
  obtain ⟨hd, m, hh, -, hfit, hmat⟩ := readMatrixDouble_ok h
  obtain ⟨-, hadv, -⟩ := readDataElementHeader_cursor hh
  rw [hmat]
  simp only
  omega

theorem readMatrixStruct_cursor {inflate : List Byte → Option (List Byte)} {fuel : Nat}
    {d d' : Decoder} (h : ReadMatrixStruct inflate fuel d = .ok d') :
    d.mat.cursor + 4 ≤ d'.mat.cursor ∧ d'.mat.cursor ≤ d'.mat.data.length := by
  unfold ReadMatrixStruct at h
  cases hh : d.mat.ReadDataElementHeader inflate fuel with
  | error e => simp [hh, bind, Except.bind] at h
  | ok v =>
    obtain ⟨hd, m⟩ := v
    obtain ⟨-, hadv, -⟩ := readDataElementHeader_cursor hh
    simp only [hh, bind, Except.bind] at h
    split_ifs at h
    all_goals first
      | (simp [throw, throwThe, MonadExceptOf.throw, pure, Except.pure] at h; done)
      | skip
    simp only [pure, Except.pure] at h
    cases hp : m.ReadPrimitive 4 with
    | error e => simp [hp] at h
    | ok w =>
      obtain ⟨L, m2⟩ := w
      obtain ⟨-, hm2, -⟩ := readPrimitive_ok hp
      simp only [hp] at h
      cases hh2 : m2.ReadDataElementHeader inflate fuel with
      | error e => simp [hh2] at h
      | ok v2 =>
        obtain ⟨hd2, m3⟩ := v2
        obtain ⟨-, hadv2, hin2⟩ := readDataElementHeader_cursor hh2
        simp only [hh2] at h
        split_ifs at h
        generalize hr : readFieldNames _ _ _ _ = r at h
        cases r with
        | error e => simp at h
        | ok d2 =>
          simp only [Except.ok.injEq] at h
          subst h
          obtain ⟨a, b, c⟩ := readFieldNames_cursor _ _ _ _ _ hr
          simp only at a b c ⊢
          rw [hm2] at hadv2
          simp only at hadv2
          refine ⟨by rw [b]; omega, ?_⟩
          rcases Nat.eq_zero_or_pos (toInt32 (hd2.numberOfBytes / L)).toNat with hz | hpos
          · rw [hz] at b
            rw [b, a]; simp only [Nat.zero_mul]; omega
          · exact c hpos

theorem readMatrix_cursor {inflate : List Byte → Option (List Byte)} {fuel : Nat}
    {d d' : Decoder} (h : ReadMatrix inflate fuel d = .ok d') :
    d.mat.cursor + 4 ≤ d'.mat.cursor ∧ d'.mat.cursor ≤ d'.mat.data.length := by
  unfold ReadMatrix at h
  rw [bind_eq_ok] at h
  obtain ⟨⟨flags, d4⟩, hpro, hdisp⟩ := h
  unfold readMatrixPrologue at hpro
  rw [bind_eq_ok] at hpro
  obtain ⟨⟨fl, d1⟩, hflags, hpro⟩ := hpro
  simp only at hpro
  rw [bind_eq_ok] at hpro
  obtain ⟨d2, hattr, hpro⟩ := hpro
  rw [bind_eq_ok] at hpro
  obtain ⟨d3, hdims, hpro⟩ := hpro
  rw [bind_eq_ok] at hpro
  obtain ⟨d4', hname, hpro⟩ := hpro
  simp only [pure, Except.pure, Except.ok.injEq, Prod.mk.injEq] at hpro
  obtain ⟨-, rfl⟩ := hpro
  have c1 := (readArrayFlags_cursor hflags).1
  have c2 := attributeField_mat hattr
  have c3 := (readDimensions_cursor hdims).1
  have c4 := (readArrayName_cursor hname).1
  rw [c2] at c3
  simp only at hdisp
  have key : ∀ d5 : Decoder, (d4'.mat.cursor + 4 ≤ d5.mat.cursor ∧
      d5.mat.cursor ≤ d5.mat.data.length) →
      d.mat.cursor + 4 ≤ d5.mat.cursor ∧ d5.mat.cursor ≤ d5.mat.data.length := by
    rintro d5 ⟨a, b⟩
    exact ⟨by omega, b⟩
  split_ifs at hdisp
  · exact key _ (readMatrixStruct_cursor hdisp)
  · exact key _ (readMatrixChar_cursor hdisp)
  · exact key _ (readMatrixDouble_cursor hdisp)

theorem mainLoopBody_cursor {inflate : List Byte → Option (List Byte)} {fuel : Nat}
    {d d' : Decoder} (h : mainLoopBody inflate fuel d = .ok d') :
    d.mat.cursor + 4 ≤ d'.mat.cursor ∧ d'.mat.cursor ≤ d'.mat.data.length := by
  unfold mainLoopBody at h
  cases hh : d.mat.ReadDataElementHeader inflate fuel with
  | error e => simp [hh, bind, Except.bind] at h
  | ok v =>
    obtain ⟨hd, m⟩ := v
    obtain ⟨-, hadv, hin⟩ := readDataElementHeader_cursor hh
    simp only [hh, bind, Except.bind] at h
    split_ifs at h
    · obtain ⟨a, b⟩ := readMatrix_cursor h
      simp only at a
      exact ⟨by omega, b⟩
    · cases hs : m.Skip hd.numberOfBytes with
      | error e => simp [hs] at h
      | ok m' =>
        simp only [hs, pure, Except.pure, Except.ok.injEq] at h
        subst h
        obtain ⟨hfit, rfl⟩ := (skip_ok_iff _ _ _).mp hs
        simp only
        omega

/-- The loop of `main` is `mainLoopBody` repeated until the end of the file. -/
theorem mainLoop_succ (inflate : List Byte → Option (List Byte)) (fuel steps : Nat)
    (d : Decoder) :
    mainLoop inflate fuel (steps + 1) d =
      (do
        if ← d.mat.EndOfFile then pure d
        else
          let d ← mainLoopBody inflate fuel d
          mainLoop inflate fuel steps d) := by
  rw [mainLoop]
  unfold mainLoopBody
  cases he : d.mat.EndOfFile with
  | error e => simp [bind, Except.bind]
  | ok b =>
    cases b with
    | true => simp [bind, Except.bind]
    | false =>
      simp only [bind, Except.bind, Bool.false_eq_true, if_false]
      cases hh : d.mat.ReadDataElementHeader inflate fuel with
      | error e => rfl
      | ok v => rfl

/-! ## The char decoder -/

set_option maxRecDepth 1000000 in
/-- C11, as stated, fails for the tags 17 and 18: in `charMatrixUtf16` the
matrix is of class char and its data element is tagged `miUTF16` with 4 bytes
that lie in the buffer; `ReadMatrixChar` fails with `UnexpectedDataType`. -/
theorem utf16_text_is_refused :
    MatFile.ReadDataElementHeader sampleInflate 1 ⟨sampleFileHeader ++ charMatrixUtf16, 173⟩ =
        .ok (⟨miUTF16, 4⟩, ⟨sampleFileHeader ++ charMatrixUtf16, 180⟩) ∧
      180 + 4 ≤ (sampleFileHeader ++ charMatrixUtf16).length ∧
      ReadMatrixChar sampleInflate 1 (decoderAt (sampleFileHeader ++ charMatrixUtf16) 173) =
        .error .UnexpectedDataType ∧
      main sampleInflate 1 2 (sampleFileHeader ++ charMatrixUtf16) =
        .error .UnexpectedDataType := by
  decide

/-- C11 (amended): when the header of the data element of a char-class matrix
resolves to `hd` and leaves the file at `m`, `ReadMatrixChar` accepts it if and
only if its type tag is `miUTF8` (16); the tags `miUTF16` (17) and `miUTF32`
(18), like every other tag, fail with `UnexpectedDataType`. When the tag is
accepted and `numberOfBytes` bytes lie in the buffer, exactly these bytes are
read as the text and the cursor moves by `numberOfBytes`; when they do not lie
in the buffer the read fails with `OutOfBounds`. -/
theorem readMatrixChar_accepts_utf8_only (inflate : List Byte → Option (List Byte))
    (fuel : Nat) (d : Decoder) (hd : MatDataElementHeader) (m : MatFile)
    (hh : d.mat.ReadDataElementHeader inflate fuel = .ok (hd, m)) :
    (ReadMatrixChar inflate fuel d = .error .UnexpectedDataType ↔ hd.dataType ≠ miUTF8) ∧
      (hd.dataType = miUTF16 ∨ hd.dataType = miUTF32 →
        ReadMatrixChar inflate fuel d = .error .UnexpectedDataType) ∧
      (hd.dataType = miUTF8 → m.cursor + hd.numberOfBytes ≤ m.data.length →
        ReadMatrixChar inflate fuel d =
          .ok { d with
                mat := ⟨m.data, m.cursor + hd.numberOfBytes⟩,
                output := d.output ++
                  [Event.text miUTF8 (cstr ((m.data.drop m.cursor).take hd.numberOfBytes))] }) ∧
      (hd.dataType = miUTF8 → m.data.length < m.cursor + hd.numberOfBytes →
        ReadMatrixChar inflate fuel d = .error .OutOfBounds) := by
  obtain ⟨c1, c2, c3⟩ := readMatrixChar_cases inflate fuel d hd m hh
  refine ⟨⟨?_, c1⟩, ?_, ?_, c3⟩
  · intro herr ht
    rcases Nat.lt_or_ge m.data.length (m.cursor + hd.numberOfBytes) with hs | hf
    · rw [c3 ht hs] at herr
      cases herr
    · rw [c2 ht hf] at herr
      cases herr
  · intro ht
    apply c1
    rcases ht with ht | ht <;> rw [ht] <;> decide
  · intro ht hfit
    rw [c2 ht hfit, ht]

set_option maxRecDepth 1000000 in
/-- Witness of C11 (amended): the text element of `charFile`, a `miUTF8`
element of 2 bytes read behind the name at offset 173. -/
theorem readMatrixChar_accepts_utf8_only_witness :
    (decoderAt charFile 173).mat.ReadDataElementHeader sampleInflate 1 =
        .ok (⟨miUTF8, 2⟩, ⟨charFile, 180⟩) ∧
      180 + 2 ≤ charFile.length ∧
      ReadMatrixChar sampleInflate 1 (decoderAt charFile 173) =
        .ok { decoderAt charFile 173 with
              mat := ⟨charFile, 182⟩,
              output := [Event.text miUTF8 [104, 105]] } :=
  have h := readMatrixChar_accepts_utf8_only sampleInflate 1 (decoderAt charFile 173)
    ⟨miUTF8, 2⟩ ⟨charFile, 180⟩ (by decide)
  ⟨by decide, by decide, h.2.2.1 rfl (by decide)⟩

/-! ## Alignment behind a consumed element -/

set_option maxRecDepth 1000000 in
/-- C12: in `oddDimensionsFile` the dimensions subelement has its payload at
`p = 160` and declares `n = 9` bytes. `readDimensions` accepts it, reads the
two extents and leaves the cursor at 168, which rounds up to 168, whereas
`p + n = 169` rounds up to 176, where the name subelement stands. The run
goes on at 168: it takes the ninth byte and the padding for a name header of
length 0, the name subelement for the data element, and it ends without an
error with the array name unset and a numeric element of type 1, where the
file holds the name `A` and a double element. -/
theorem odd_dimensions_length_breaks_alignment :
    MatFile.ReadDataElementHeader sampleInflate 1 ⟨oddDimensionsFile, 152⟩ =
        .ok (⟨miINT32, 9⟩, ⟨oddDimensionsFile, 160⟩) ∧
      (readDimensions sampleInflate 1 (decoderAt oddDimensionsFile 152)).map
          (fun d => (d.mat.cursor, d.output)) =
        .ok (168, [Event.dimension 2, Event.dimension 3]) ∧
      MatFile.alignCursor 168 = 168 ∧
      MatFile.alignCursor (160 + 9) = 176 ∧
      MatFile.ReadDataElementHeader sampleInflate 1 ⟨oddDimensionsFile, 176⟩ =
        .ok (⟨miINT8, 1⟩, ⟨oddDimensionsFile, 180⟩) ∧
      main sampleInflate 1 3 oddDimensionsFile =
        .ok { mat := ⟨oddDimensionsFile, oddDimensionsFile.length⟩,
              currentField := 2 ^ 64 - 1, arrayName := [], fieldNames := [],
              output := [Event.dimension 2, Event.dimension 3, Event.numeric miINT8] } := by
  decide

/-! ## Type sizes and the numeric decoder -/

/-- C13: `MatDataTypeToSize` is 1 for the tags 1 and 2, 2 for 3 and 4, 4 for 5,
6 and 7, 8 for 9, 12 and 13, and 0 for every other tag. When the header of the
data element resolves to `hd` and leaves the file at `m`, `ReadMatrixDouble`
fails with `UnexpectedDataType` if and only if the tag is not one of 1, 2, 3,
4, 5, 6, 7, 9, 12, 13; with one of these tags it skips `numberOfBytes` bytes,
or fails with `OutOfBounds` when they do not lie in the buffer. -/
theorem matDataTypeToSize_and_numeric_tags (inflate : List Byte → Option (List Byte))
    (fuel : Nat) :
    (∀ t, MatDataTypeToSize t =
        if t = 1 ∨ t = 2 then 1
        else if t = 3 ∨ t = 4 then 2
        else if t = 5 ∨ t = 6 ∨ t = 7 then 4
        else if t = 9 ∨ t = 12 ∨ t = 13 then 8
        else 0) ∧
      (∀ t, t = 0 ∨ t = 8 ∨ t = 10 ∨ t = 11 ∨ (14 ≤ t ∧ t ≤ 18) ∨ 18 < t →
        MatDataTypeToSize t = 0) ∧
      ∀ (d : Decoder) (hd : MatDataElementHeader) (m : MatFile),
        d.mat.ReadDataElementHeader inflate fuel = .ok (hd, m) →
        (ReadMatrixDouble inflate fuel d = .error .UnexpectedDataType ↔
          hd.dataType ∉ [1, 2, 3, 4, 5, 6, 7, 9, 12, 13]) ∧
        (hd.dataType ∈ [1, 2, 3, 4, 5, 6, 7, 9, 12, 13] →
          m.cursor + hd.numberOfBytes ≤ m.data.length →
          ReadMatrixDouble inflate fuel d =
            .ok { d with
                  mat := ⟨m.data, m.cursor + hd.numberOfBytes⟩,
                  output := d.output ++ [Event.numeric hd.dataType] }) ∧
        (hd.dataType ∈ [1, 2, 3, 4, 5, 6, 7, 9, 12, 13] →
          m.data.length < m.cursor + hd.numberOfBytes →
          ReadMatrixDouble inflate fuel d = .error .OutOfBounds) := by
  refine ⟨matDataTypeToSize_table, ?_, ?_⟩
  · intro t ht
    rw [matDataTypeToSize_table]
    split_ifs <;> omega
  · intro d hd m hh
    obtain ⟨c1, c2, c3⟩ := readMatrixDouble_cases inflate fuel d hd m hh
    have hiff := matDataTypeToSize_ne_zero_iff hd.dataType
    refine ⟨⟨?_, ?_⟩, ?_, ?_⟩
    · intro herr hmem
      have hne := hiff.mpr hmem
      rcases Nat.lt_or_ge m.data.length (m.cursor + hd.numberOfBytes) with hs | hf
      · rw [c3 hne hs] at herr
        cases herr
      · rw [c2 hne hf] at herr
        cases herr
    · intro hnot
      apply c1
      by_contra hne
      exact hnot (hiff.mp hne)
    · intro hmem hfit
      exact c2 (hiff.mpr hmem) hfit
    · intro hmem hshort
      exact c3 (hiff.mpr hmem) hshort

set_option maxRecDepth 1000000 in
/-- Witness of C13: the double element of `sampleFile`, type 9 with 48 bytes,
read behind the name at offset 173. -/
theorem matDataTypeToSize_and_numeric_tags_witness :
    MatDataTypeToSize miDOUBLE = 8 ∧
      (decoderAt sampleFile 173).mat.ReadDataElementHeader sampleInflate 1 =
        .ok (⟨miDOUBLE, 48⟩, ⟨sampleFile, 184⟩) ∧
      ReadMatrixDouble sampleInflate 1 (decoderAt sampleFile 173) =
        .ok { decoderAt sampleFile 173 with
              mat := ⟨sampleFile, 184 + 48⟩,
              output := [Event.numeric miDOUBLE] } :=
  have h := matDataTypeToSize_and_numeric_tags sampleInflate 1
  ⟨(h.1 miDOUBLE).trans (by decide), by decide,
   (h.2.2 (decoderAt sampleFile 173) ⟨miDOUBLE, 48⟩ ⟨sampleFile, 184⟩ (by decide)).2.1
     (by decide) (by decide)⟩

/-! ## The array flags -/

/-- C14: the array-flags step of `ReadMatrix` succeeds if and only if the
first subelement header resolves to type `miUINT32` (6) with byte length 8 and
the 8 payload bytes lie in the buffer. It then returns the class from payload
byte 0, the flag bits from byte 1 and the max-nonzero count from the 32-bit
word in bytes 4 to 7, with the cursor 8 bytes behind the start of the payload
and the globals and the output untouched. Otherwise it fails, with the error
of the header read, `UnexpectedDataType` for another type, `InvalidLength` for
another length, `OutOfBounds` for missing payload, and `ReadMatrix` fails with
that error without any further step. -/
theorem readMatrix_arrayFlags_step (inflate : List Byte → Option (List Byte)) (fuel : Nat)
    (d : Decoder) :
    (∀ flags d', readArrayFlags inflate fuel d = .ok (flags, d') ↔
        ∃ m, d.mat.ReadDataElementHeader inflate fuel = .ok (⟨miUINT32, 8⟩, m) ∧
          m.cursor + 8 ≤ m.data.length ∧
          flags = { matrixClass := byteAt m.data m.cursor,
                    flags := byteAt m.data (m.cursor + 1),
                    undefined := u16At m.data (m.cursor + 2),
                    maxNonZero := u32At m.data (m.cursor + 4) } ∧
          d' = { d with mat := ⟨m.data, m.cursor + 8⟩ }) ∧
      (∀ err, d.mat.ReadDataElementHeader inflate fuel = .error err →
        readArrayFlags inflate fuel d = .error err) ∧
      (∀ h m, d.mat.ReadDataElementHeader inflate fuel = .ok (h, m) →
        (h.dataType ≠ miUINT32 → readArrayFlags inflate fuel d = .error .UnexpectedDataType) ∧
        (h.dataType = miUINT32 → h.numberOfBytes ≠ 8 →
          readArrayFlags inflate fuel d = .error .InvalidLength) ∧
        (h.dataType = miUINT32 → h.numberOfBytes = 8 → m.data.length < m.cursor + 8 →
          readArrayFlags inflate fuel d = .error .OutOfBounds)) ∧
      (∀ err, readArrayFlags inflate fuel d = .error err →
        ReadMatrix inflate fuel d = .error err) := by
  obtain ⟨e1, e2⟩ := readArrayFlags_error_cases inflate fuel d
  exact ⟨fun flags d' => readArrayFlags_ok_iff inflate fuel d d' flags, e1, e2,
    fun err h => readMatrix_of_arrayFlags_error h⟩

set_option maxRecDepth 1000000 in
/-- Witness of C14: the array flags of the sparse matrix of `sparseMatrix`,
class 5 with the max-nonzero count 1, read at offset 136. -/
theorem readMatrix_arrayFlags_step_witness :
    MatFile.ReadDataElementHeader sampleInflate 1 ⟨sampleFileHeader ++ sparseMatrix, 136⟩ =
        .ok (⟨miUINT32, 8⟩, ⟨sampleFileHeader ++ sparseMatrix, 144⟩) ∧
      readArrayFlags sampleInflate 1 (decoderAt (sampleFileHeader ++ sparseMatrix) 136) =
        .ok ({ matrixClass := 5, flags := 0, undefined := 0, maxNonZero := 1 },
             decoderAt (sampleFileHeader ++ sparseMatrix) 152) :=
  have h := readMatrix_arrayFlags_step sampleInflate 1
    (decoderAt (sampleFileHeader ++ sparseMatrix) 136)
  ⟨by decide,
   (h.1 _ _).mpr ⟨⟨sampleFileHeader ++ sparseMatrix, 144⟩, by decide, by decide, by decide,
     by decide⟩⟩

/-! ## The name subelement -/

set_option maxRecDepth 1000000 in
/-- C15, as stated, fails for the tag 2: in `uint8NameMatrix` the name
subelement is tagged `miUINT8` with the one byte `A`; the name step and the
whole run fail with `UnexpectedDataType`. -/
theorem uint8_name_is_refused :
    MatFile.ReadDataElementHeader sampleInflate 1 ⟨sampleFileHeader ++ uint8NameMatrix, 168⟩ =
        .ok (⟨miUINT8, 1⟩, ⟨sampleFileHeader ++ uint8NameMatrix, 172⟩) ∧
      readArrayName sampleInflate 1 (decoderAt (sampleFileHeader ++ uint8NameMatrix) 168) =
        .error .UnexpectedDataType ∧
      main sampleInflate 1 2 (sampleFileHeader ++ uint8NameMatrix) =
        .error .UnexpectedDataType := by
  decide

/-- C15 (amended): when the header of the name subelement resolves to `hd` and
leaves the file at `m`, the name step of `ReadMatrix` accepts it if and only if
its type tag is `miINT8` (1); the tag `miUINT8` (2), like every other tag,
fails with `UnexpectedDataType`. When it is accepted with byte length 0, the
current array name, the other globals and the output are unchanged and the
cursor stays behind the header; when it is accepted with byte length `n > 0`
and the bytes lie in the buffer, the current array name becomes exactly the `n`
payload bytes and the cursor moves by `n`. -/
theorem readArrayName_accepts_int8_only (inflate : List Byte → Option (List Byte))
    (fuel : Nat) (d : Decoder) (hd : MatDataElementHeader) (m : MatFile)
    (hh : d.mat.ReadDataElementHeader inflate fuel = .ok (hd, m)) :
    (readArrayName inflate fuel d = .error .UnexpectedDataType ↔ hd.dataType ≠ miINT8) ∧
      (hd.dataType = miUINT8 → readArrayName inflate fuel d = .error .UnexpectedDataType) ∧
      (hd.dataType = miINT8 → hd.numberOfBytes = 0 →
        readArrayName inflate fuel d = .ok { d with mat := m }) ∧
      (hd.dataType = miINT8 → 0 < hd.numberOfBytes →
        m.cursor + hd.numberOfBytes ≤ m.data.length →
        readArrayName inflate fuel d =
          .ok { d with
                mat := ⟨m.data, m.cursor + hd.numberOfBytes⟩,
                arrayName := (m.data.drop m.cursor).take hd.numberOfBytes,
                output := d.output ++
                  [Event.named (cstr ((m.data.drop m.cursor).take hd.numberOfBytes))] }) ∧
      (hd.dataType = miINT8 → 0 < hd.numberOfBytes →
        m.data.length < m.cursor + hd.numberOfBytes →
        readArrayName inflate fuel d = .error .OutOfBounds) := by
  obtain ⟨c1, c2, c3, c4⟩ := readArrayName_cases inflate fuel d hd m hh
  refine ⟨⟨?_, c1⟩, ?_, c2, c3, c4⟩
  · intro herr ht
    rcases Nat.eq_zero_or_pos hd.numberOfBytes with hz | hpos
    · rw [c2 ht hz] at herr
      cases herr
    · rcases Nat.lt_or_ge m.data.length (m.cursor + hd.numberOfBytes) with hs | hf
      · rw [c4 ht hpos hs] at herr
        cases herr
      · rw [c3 ht hpos hf] at herr
        cases herr
  · intro ht
    apply c1
    rw [ht]
    decide

set_option maxRecDepth 1000000 in
/-- Witness of C15 (amended): the name subelement of `sampleFile`, tagged
`miINT8` with the one byte `A`, read at offset 168. -/
theorem readArrayName_accepts_int8_only_witness :
    (decoderAt sampleFile 168).mat.ReadDataElementHeader sampleInflate 1 =
        .ok (⟨miINT8, 1⟩, ⟨sampleFile, 172⟩) ∧
      readArrayName sampleInflate 1 (decoderAt sampleFile 168) =
        .ok { decoderAt sampleFile 168 with
              mat := ⟨sampleFile, 173⟩, arrayName := [65],
              output := [Event.named [65]] } :=
  have h := readArrayName_accepts_int8_only sampleInflate 1 (decoderAt sampleFile 168)
    ⟨miINT8, 1⟩ ⟨sampleFile, 172⟩ (by decide)
  ⟨by decide, h.2.2.2.1 rfl (by decide) (by decide)⟩

/-! ## One inflate attempt -/

theorem inflateAndSplice_of_uncompress (inflate : List Byte → Option (List Byte))
    (st : MatFile) (header : MatDataElementHeader) (r : ZResult)
    (hfit : st.cursor + header.numberOfBytes ≤ st.data.length)
    (hr : uncompress inflate (header.numberOfBytes * 20 % 2 ^ 32)
      ((st.data.drop st.cursor).take header.numberOfBytes) = r)
    (hnot : ∀ U, r ≠ .Z_OK U) :
    st.inflateAndSplice inflate header = .error .DecompressionFailed := by
  have h1 : ¬ st.data.length < st.cursor + header.numberOfBytes := by omega
  unfold MatFile.inflateAndSplice
  simp only [bind, Except.bind, pure, Except.pure, throw, throwThe, MonadExceptOf.throw,
    h1, if_false, hr]

set_option maxRecDepth 1000000 in
/-- C16, as stated, fails: in `zeroCompressedFile` the 49 payload bytes are a
valid zlib stream that inflates to the 1056 bytes of `zeroMatrix`, more than
the capacity of 20 * 49 = 980 bytes; `uncompress` reports `Z_BUF_ERROR`, and
the header read and the run fail with `DecompressionFailed`. -/
theorem inflate_beyond_capacity_fails :
    MatFile.readHeaderAtCursor ⟨zeroCompressedFile, 128⟩ =
        .ok (⟨miCOMPRESSED, 49⟩, ⟨zeroCompressedFile, 136⟩) ∧
      twoStreamInflate ((zeroCompressedFile.drop 136).take 49) = some zeroMatrix ∧
      zeroMatrix.length = 1056 ∧
      49 * 20 % 2 ^ 32 = 980 ∧
      uncompress twoStreamInflate (49 * 20 % 2 ^ 32) ((zeroCompressedFile.drop 136).take 49) =
        .Z_BUF_ERROR ∧
      MatFile.ReadDataElementHeader twoStreamInflate 2 ⟨zeroCompressedFile, 128⟩ =
        .error .DecompressionFailed ∧
      main twoStreamInflate 2 2 zeroCompressedFile = .error .DecompressionFailed := by
  decide

/-- C16 (amended): for a compressed element whose `n` payload bytes lie in the
buffer, the inflate is tried once, with an output capacity of `n * 20` taken
modulo `2 ^ 32`. A payload that is not a valid zlib stream makes the splice
fail with `DecompressionFailed`; so does a valid stream whose inflated size
exceeds the capacity, through the buffer-too-small report: the output buffer is
not grown and the inflate is not tried again. A valid stream whose inflated
size is within the capacity never fails with `DecompressionFailed`. A splice
that fails with `DecompressionFailed` makes `ReadDataElementHeader` fail with
it. -/
theorem inflate_is_tried_once (inflate : List Byte → Option (List Byte))
    (st : MatFile) (header : MatDataElementHeader)
    (hfit : st.cursor + header.numberOfBytes ≤ st.data.length) :
    (inflate ((st.data.drop st.cursor).take header.numberOfBytes) = none →
        st.inflateAndSplice inflate header = .error .DecompressionFailed) ∧
      (∀ U, inflate ((st.data.drop st.cursor).take header.numberOfBytes) = some U →
        header.numberOfBytes * 20 % 2 ^ 32 < U.length →
        st.inflateAndSplice inflate header = .error .DecompressionFailed) ∧
      (∀ U, inflate ((st.data.drop st.cursor).take header.numberOfBytes) = some U →
        U.length ≤ header.numberOfBytes * 20 % 2 ^ 32 →
        st.inflateAndSplice inflate header ≠ .error .DecompressionFailed) ∧
      (∀ fuel st0, MatFile.readHeaderAtCursor st0 = .ok (header, st) →
        header.dataType = miCOMPRESSED →
        st.inflateAndSplice inflate header = .error .DecompressionFailed →
        MatFile.ReadDataElementHeader inflate (fuel + 1) st0 = .error .DecompressionFailed) := by
  refine ⟨?_, ?_, ?_, ?_⟩
  · intro hnone
    refine inflateAndSplice_of_uncompress inflate st header .Z_DATA_ERROR hfit ?_ ?_
    · unfold uncompress
      rw [hnone]
    · intro U h
      cases h
  · intro U hsome hbig
    refine inflateAndSplice_of_uncompress inflate st header .Z_BUF_ERROR hfit ?_ ?_
    · unfold uncompress
      rw [hsome]
      simp only
      rw [if_neg (by omega)]
    · intro U h
      cases h
  · intro U hsome hsmall herr
    have hunc : uncompress inflate (header.numberOfBytes * 20 % 2 ^ 32)
        ((st.data.drop st.cursor).take header.numberOfBytes) = .Z_OK U := by
      unfold uncompress
      rw [hsome]
      simp only
      rw [if_pos hsmall]
    have h1 : ¬ st.data.length < st.cursor + header.numberOfBytes := by omega
    unfold MatFile.inflateAndSplice at herr
    simp only [bind, Except.bind, pure, Except.pure, throw, throwThe, MonadExceptOf.throw,
      h1, if_false, hunc] at herr
    split_ifs at herr
    all_goals first
      | cases herr
      | (generalize hr1 : memcpyWithin _ _ _ _ = r1 at herr
         cases r1 with
         | error e1 =>
           have h2 := memcpyWithin_error hr1
           simp only [Except.error.injEq] at herr
           rw [herr] at h2
           cases h2
         | ok v1 =>
           simp only at herr
           generalize hr2 : memcpyFrom _ _ _ = r2 at herr
           cases r2 with
           | error e2 =>
             have h2 := memcpyFrom_error hr2
             simp only [Except.error.injEq] at herr
             rw [herr] at h2
             cases h2
           | ok v2 => cases herr)
  · intro fuel st0 hrd hc herr
    rw [MatFile.ReadDataElementHeader]
    simp only [hrd, bind, Except.bind, hc, if_true, herr]

set_option maxRecDepth 1000000 in
/-- Witness of C16 (amended): the compressed element of `zeroCompressedFile`,
whose payload lies in the buffer and inflates to 1056 bytes, beyond the
capacity of 980. -/
theorem inflate_is_tried_once_witness :
    136 + 49 ≤ zeroCompressedFile.length ∧
      twoStreamInflate ((zeroCompressedFile.drop 136).take 49) = some zeroMatrix ∧
      49 * 20 % 2 ^ 32 < zeroMatrix.length ∧
      MatFile.inflateAndSplice twoStreamInflate ⟨zeroCompressedFile, 136⟩ ⟨miCOMPRESSED, 49⟩ =
        .error .DecompressionFailed :=
  have h := inflate_is_tried_once twoStreamInflate ⟨zeroCompressedFile, 136⟩
    ⟨miCOMPRESSED, 49⟩ (by decide)
  ⟨by decide, by decide, by decide, h.2.1 zeroMatrix (by decide) (by decide)⟩

/-! ## Loads outside the buffer -/

/-- With fewer than 4 bytes from the aligned cursor the header decoding fails
with `OutOfBounds`, whatever the peek has read. -/
theorem readHeaderAtCursor_short (st : MatFile)
    (hshort : st.data.length < MatFile.alignCursor st.cursor + 4) :
    st.readHeaderAtCursor = .error .OutOfBounds := by
  by_cases hpeek : u16At st.data (MatFile.alignCursor st.cursor + 2) = 0
  · exact readHeaderAtCursor_normal_short st hpeek (by omega)
  · exact readHeaderAtCursor_small_short st hpeek hshort

/-- A header that does not fit in the buffer makes `ReadDataElementHeader` fail
with `OutOfBounds`: with fewer than 4 bytes from the aligned cursor, or with
the two 32-bit words selected and fewer than 8 bytes. -/
theorem readDataElementHeader_outOfBounds (inflate : List Byte → Option (List Byte))
    (fuel : Nat) (st : MatFile) :
    (st.data.length < MatFile.alignCursor st.cursor + 4 →
        MatFile.ReadDataElementHeader inflate (fuel + 1) st = .error .OutOfBounds) ∧
      (u16At st.data (MatFile.alignCursor st.cursor + 2) = 0 →
        st.data.length < MatFile.alignCursor st.cursor + 8 →
        MatFile.ReadDataElementHeader inflate (fuel + 1) st = .error .OutOfBounds) := by
  refine ⟨?_, ?_⟩
  · intro hshort
    rw [MatFile.ReadDataElementHeader]
    simp only [readHeaderAtCursor_short st hshort, bind, Except.bind]
  · intro hpeek hshort
    rw [MatFile.ReadDataElementHeader]
    simp only [readHeaderAtCursor_normal_short st hpeek hshort, bind, Except.bind]

/-- The header decoding loads a byte outside the buffer exactly when fewer than
4 bytes remain at the aligned cursor, and that byte is one of the two that the
peek loads. -/
theorem headerLoads_outside_iff (st : MatFile) :
    (∃ i, i ∈ st.headerLoads ∧ st.data.length ≤ i) ↔
      st.data.length < MatFile.alignCursor st.cursor + 4 := by
  unfold MatFile.headerLoads
  constructor
  · rintro ⟨i, hi, hge⟩
    simp only [List.mem_append, List.mem_cons, List.mem_singleton, List.not_mem_nil,
      or_false] at hi
    rcases hi with (h | h) | h
    · omega
    · omega
    · split_ifs at h <;>
        simp only [List.mem_append, List.mem_cons, List.mem_singleton, List.not_mem_nil,
          or_false] at h <;> omega
  · intro hshort
    refine ⟨MatFile.alignCursor st.cursor + 3, ?_, by omega⟩
    simp only [List.mem_append, List.mem_cons, List.mem_singleton, List.not_mem_nil,
      or_false]
    left; right; trivial

set_option maxRecDepth 1000000 in
/-- C17: `charFile` is a file of 184 bytes whose last element, a text of 2
bytes, ends at offset 182 and is padded to the end of the file. The run of
`main` decodes the matrix and stands at 182, which is not the end of the file;
the next header read aligns the cursor to 184, the length of the buffer, and
its peek loads the bytes 186 and 187, outside the buffer, before any assertion;
only then the read fails with `OutOfBounds`. `Skip` succeeds exactly when
the bytes lie in the buffer. -/
theorem header_peek_loads_outside_buffer :
    charFile.length = 184 ∧
      (mainLoopBody sampleInflate 1 (Decoder.init ⟨charFile, 128⟩)).map
          (fun d => (d.mat.cursor, d.output)) =
        .ok (182, [Event.dimension 1, Event.dimension 2, Event.named [99],
                   Event.text miUTF8 [104, 105]]) ∧
      MatFile.EndOfFile ⟨charFile, 182⟩ = .ok false ∧
      MatFile.alignCursor 182 = 184 ∧
      MatFile.headerLoads ⟨charFile, 182⟩ = [186, 187] ∧
      MatFile.ReadDataElementHeader sampleInflate 1 ⟨charFile, 182⟩ = .error .OutOfBounds ∧
      main sampleInflate 1 3 charFile = .error .OutOfBounds ∧
      MatFile.Skip ⟨charFile, 182⟩ 2 = .ok ⟨charFile, 184⟩ ∧
      MatFile.Skip ⟨charFile, 182⟩ 3 = .error .OutOfBounds := by
  decide

/-! ## The invariants of the cursor -/

theorem resize_length (data : List Byte) (n : Nat) : (resize data n).length = n := by
  unfold resize
  rw [List.length_append, List.length_take, List.length_replicate]
  omega

theorem memcpyWithin_length {data r : List Byte} {dst src len : Nat}
    (h : memcpyWithin data dst src len = .ok r) : r.length = data.length := by
  unfold memcpyWithin at h
  split_ifs at h with h0 hb ho
  · simp only [Except.ok.injEq] at h
    rw [← h]
  · simp only [Except.ok.injEq] at h
    rw [← h]
    simp only [List.length_append, List.length_take, List.length_drop]
    omega

theorem memcpyFrom_length {data r source : List Byte} {dst : Nat}
    (h : memcpyFrom data dst source = .ok r) : r.length = data.length := by
  unfold memcpyFrom at h
  split_ifs at h with h0 hb
  · simp only [Except.ok.injEq] at h
    rw [← h]
  · simp only [Except.ok.injEq] at h
    rw [← h]
    simp only [List.length_append, List.length_take, List.length_drop]
    omega

/-- A successful splice makes the buffer longer. -/
theorem inflateAndSplice_grows {inflate : List Byte → Option (List Byte)} {st st' : MatFile}
    {header : MatDataElementHeader}
    (hok : st.inflateAndSplice inflate header = .ok st') :
    st.data.length < st'.data.length := by
  unfold MatFile.inflateAndSplice at hok
  simp only [bind, Except.bind, pure, Except.pure, throw, throwThe, MonadExceptOf.throw] at hok
  by_cases c1 : st.data.length < st.cursor + header.numberOfBytes
  · rw [if_pos c1] at hok; cases hok
  · rw [if_neg c1] at hok
    generalize uncompress inflate _ _ = r at hok
    cases r with
    | Z_OK uncompressed =>
      simp only [] at hok
      split_ifs at hok with c2 c3
      generalize hr1 : memcpyWithin _ _ _ _ = r1 at hok
      cases r1 with
      | error e1 => cases hok
      | ok v1 =>
        simp only [] at hok
        generalize hr2 : memcpyFrom _ _ _ = r2 at hok
        cases r2 with
        | error e2 => cases hok
        | ok v2 =>
          simp only [Except.ok.injEq] at hok
          subst hok
          have l1 := memcpyWithin_length hr1
          have l2 := memcpyFrom_length hr2
          rw [resize_length] at l1
          simp only
          rw [l2, l1]
          simp only [gt_iff_lt, not_not] at c2
          omega
    | Z_MEM_ERROR => cases hok
    | Z_BUF_ERROR => cases hok
    | Z_DATA_ERROR => cases hok

theorem readHeaderAtCursor_not_misaligned (st : MatFile) :
    st.readHeaderAtCursor ≠ .error .MisalignedElement := by
  intro h
  rcases readHeaderAtCursor_error h with h1 | h1
  · cases h1
  · by_cases hpeek : u16At st.data (MatFile.alignCursor st.cursor + 2) = 0
    · by_cases hfit : MatFile.alignCursor st.cursor + 8 ≤ st.data.length
      · rw [readHeaderAtCursor_normal st hfit hpeek] at h
        cases h
      · rw [readHeaderAtCursor_normal_short st hpeek (by omega)] at h
        cases h
    · by_cases hfit : MatFile.alignCursor st.cursor + 4 ≤ st.data.length
      · rw [readHeaderAtCursor_small st hfit hpeek] at h
        cases h
      · rw [readHeaderAtCursor_small_short st hpeek (by omega)] at h
        cases h

/-- C18: from a state with the cursor inside the buffer, every successful
`Skip`, `ReadPrimitive`, `ReadMem`, splice, `ReadDataElementHeader` (whatever
the number of splices it goes through), `ReadMatrixStruct`, `ReadMatrixChar`,
`ReadMatrixDouble` and `ReadMatrix` ends with the cursor inside its, possibly
longer, buffer; for the four decoders of the matrix this holds from every
state. Every header is read at a cursor that is a multiple of 8: the
header decoding first aligns the cursor, never fails with `MisalignedElement`,
and when it succeeds it has read the header at the aligned position and stands
4 or 8 bytes behind it; the header that `ReadDataElementHeader` returns was
read at the aligned position of its starting cursor in the final buffer. -/
theorem cursor_stays_in_buffer (inflate : List Byte → Option (List Byte)) (fuel : Nat)
    (st : MatFile) (d : Decoder) (hst : st.cursor ≤ st.data.length) :
    (∀ n st', st.Skip n = .ok st' → st'.cursor ≤ st'.data.length) ∧
      (∀ size v st', st.ReadPrimitive size = .ok (v, st') → st'.cursor ≤ st'.data.length) ∧
      (∀ count b st', st.ReadMem count = .ok (b, st') → st'.cursor ≤ st'.data.length) ∧
      (∀ header st', st.inflateAndSplice inflate header = .ok st' →
        st'.cursor ≤ st'.data.length) ∧
      (∀ h st', st.ReadDataElementHeader inflate fuel = .ok (h, st') →
        st'.cursor ≤ st'.data.length) ∧
      (∀ d', ReadMatrixStruct inflate fuel d = .ok d' → d'.mat.cursor ≤ d'.mat.data.length) ∧
      (∀ d', ReadMatrixChar inflate fuel d = .ok d' → d'.mat.cursor ≤ d'.mat.data.length) ∧
      (∀ d', ReadMatrixDouble inflate fuel d = .ok d' → d'.mat.cursor ≤ d'.mat.data.length) ∧
      (∀ d', ReadMatrix inflate fuel d = .ok d' → d'.mat.cursor ≤ d'.mat.data.length) ∧
      (∀ st2 : MatFile, MatFile.alignCursor st2.cursor % 8 = 0 ∧
        st2.readHeaderAtCursor ≠ .error .MisalignedElement ∧
        ∀ h st2', st2.readHeaderAtCursor = .ok (h, st2') →
          (h = ⟨u16At st2.data (MatFile.alignCursor st2.cursor),
                u16At st2.data (MatFile.alignCursor st2.cursor + 2)⟩ ∧
            st2' = ⟨st2.data, MatFile.alignCursor st2.cursor + 4⟩) ∨
          (h = ⟨u32At st2.data (MatFile.alignCursor st2.cursor),
                u32At st2.data (MatFile.alignCursor st2.cursor + 4)⟩ ∧
            st2' = ⟨st2.data, MatFile.alignCursor st2.cursor + 8⟩)) ∧
      (∀ h st', st.ReadDataElementHeader inflate fuel = .ok (h, st') →
        MatFile.readHeaderAtCursor ⟨st'.data, MatFile.alignCursor st.cursor⟩ = .ok (h, st')) := by
  refine ⟨?_, ?_, ?_, ?_, ?_, ?_, ?_, ?_, ?_, ?_, ?_⟩
  · intro n st' h
    obtain ⟨hfit, rfl⟩ := (skip_ok_iff _ _ _).mp h
    exact hfit
  · intro size v st' h
    obtain ⟨-, rfl, hfit⟩ := readPrimitive_ok h
    exact hfit
  · intro count b st' h
    obtain ⟨-, rfl, hfit⟩ := readMem_ok h
    exact hfit
  · intro header st' h
    obtain ⟨-, hcur⟩ := inflateAndSplice_ok h
    have hlen := inflateAndSplice_grows h
    omega
  · intro h st' hok
    exact (readDataElementHeader_cursor hok).2.2
  · intro d' h
    exact (readMatrixStruct_cursor h).2
  · intro d' h
    exact (readMatrixChar_cursor h).2
  · intro d' h
    exact (readMatrixDouble_cursor h).2
  · intro d' h
    exact (readMatrix_cursor h).2
  · intro st2
    refine ⟨alignCursor_mod st2.cursor, readHeaderAtCursor_not_misaligned st2, ?_⟩
    intro h st2' hok
    rcases readHeaderAtCursor_ok hok with ⟨-, h1, h2, -⟩ | ⟨-, h1, h2, -⟩
    · exact Or.inl ⟨h1, h2⟩
    · exact Or.inr ⟨h1, h2⟩
  · intro h st' hok
    exact (readDataElementHeader_ok inflate fuel st st' h hok).2

set_option maxRecDepth 1000000 in
/-- Witness of C18: the file header and `compressedElement`, read at offset 128:
the header read goes through one splice, which makes the buffer `sampleFile`,
and ends at 136; `ReadMatrix` then ends at 232, the length of that buffer. -/
theorem cursor_stays_in_buffer_witness :
    128 ≤ (sampleFileHeader ++ compressedElement).length ∧
    MatFile.ReadDataElementHeader sampleInflate 2 ⟨sampleFileHeader ++ compressedElement, 128⟩ =
      .ok (⟨miMATRIX, 96⟩, ⟨sampleFile, 136⟩) ∧
    136 ≤ sampleFile.length ∧
    (∀ d', ReadMatrix sampleInflate 2 (decoderAt sampleFile 136) = .ok d' →
      d'.mat.cursor ≤ d'.mat.data.length) ∧
    (ReadMatrix sampleInflate 2 (decoderAt sampleFile 136)).map (fun d => d.mat.cursor) =
      .ok sampleFile.length :=
  have h := cursor_stays_in_buffer sampleInflate 2
    ⟨sampleFileHeader ++ compressedElement, 128⟩ (decoderAt sampleFile 136) (by decide)
  have hrd : MatFile.ReadDataElementHeader sampleInflate 2
      ⟨sampleFileHeader ++ compressedElement, 128⟩ = .ok (⟨miMATRIX, 96⟩, ⟨sampleFile, 136⟩) := by
    decide
  ⟨by decide, hrd, h.2.2.2.2.1 _ _ hrd, h.2.2.2.2.2.2.2.2.1, by decide⟩

/-! ## The cursor across a header read -/

/-- C19: every successful `ReadDataElementHeader` call, whatever the number of
splices it goes through, returns with the cursor at least 4 bytes behind the
starting cursor, 4 or 8 bytes behind its aligned position. The body of the
loop of `main`, a header read followed by `ReadMatrix` or `Skip`, therefore
ends with a cursor strictly behind the one it started with, and the loop is
that body repeated until the end of the file. -/
theorem cursor_advances_across_header (inflate : List Byte → Option (List Byte))
    (fuel : Nat) :
    (∀ st h st', MatFile.ReadDataElementHeader inflate fuel st = .ok (h, st') →
        st.cursor + 4 ≤ st'.cursor ∧
        (st'.cursor = MatFile.alignCursor st.cursor + 4 ∨
          st'.cursor = MatFile.alignCursor st.cursor + 8)) ∧
      (∀ d d', mainLoopBody inflate fuel d = .ok d' → d.mat.cursor < d'.mat.cursor) ∧
      (∀ steps d, mainLoop inflate fuel (steps + 1) d =
        (do
          if ← d.mat.EndOfFile then pure d
          else
            let d ← mainLoopBody inflate fuel d
            mainLoop inflate fuel steps d)) := by
  refine ⟨?_, ?_, ?_⟩
  · intro st h st' hok
    obtain ⟨a, b, -⟩ := readDataElementHeader_cursor hok
    exact ⟨b, a⟩
  · intro d d' hok
    have := (mainLoopBody_cursor hok).1
    omega
  · intro steps d
    exact mainLoop_succ inflate fuel steps d

set_option maxRecDepth 1000000 in
/-- Witness of C19: the header read at offset 128 of the file header followed
by `compressedElement` goes through one splice, which takes the cursor back
from 136 to 128, and returns at 136; the loop body on `sampleFile` moves the
cursor from 128 to 232. -/
theorem cursor_advances_across_header_witness :
    MatFile.ReadDataElementHeader sampleInflate 2 ⟨sampleFileHeader ++ compressedElement, 128⟩ =
        .ok (⟨miMATRIX, 96⟩, ⟨sampleFile, 136⟩) ∧
      MatFile.inflateAndSplice sampleInflate ⟨sampleFileHeader ++ compressedElement, 136⟩
          ⟨miCOMPRESSED, 56⟩ = .ok ⟨sampleFile, 128⟩ ∧
      128 + 4 ≤ 136 ∧
      (mainLoopBody sampleInflate 2 (Decoder.init ⟨sampleFile, 128⟩)).map
          (fun d => d.mat.cursor) = .ok 232 ∧
      (∀ d', mainLoopBody sampleInflate 2 (Decoder.init ⟨sampleFile, 128⟩) = .ok d' →
        128 < d'.mat.cursor) :=
  have h := cursor_advances_across_header sampleInflate 2
  have hrd : MatFile.ReadDataElementHeader sampleInflate 2
      ⟨sampleFileHeader ++ compressedElement, 128⟩ = .ok (⟨miMATRIX, 96⟩, ⟨sampleFile, 136⟩) := by
    decide
  ⟨hrd, by decide, (h.1 _ _ _ hrd).1, by decide,
   fun d' hd => h.2.1 (Decoder.init ⟨sampleFile, 128⟩) d' hd⟩

/-! ## The range of the returned header -/

/-- C20: when `ReadDataElementHeader` succeeds, with `s` the aligned position
of the starting cursor, the returned type is below 65536 and is not the
compressed tag. Either the two 16-bit words were selected, the cursor is at
`s+4` and the returned length is the non-zero 16-bit word at `s+2`, between 1
and 65535; or the two 32-bit words were selected, the cursor is at `s+8`, the
16-bit word at `s+2` is zero and the 32-bit word at `s` is below 65536. A
32-bit word at `s` with a non-zero bit in its upper 16 bits is therefore never
decoded as a type of 32 bits: the two 16-bit words are selected. -/
theorem readDataElementHeader_header_range (inflate : List Byte → Option (List Byte))
    (fuel : Nat) (st st' : MatFile) (h : MatDataElementHeader)
    (hok : MatFile.ReadDataElementHeader inflate fuel st = .ok (h, st')) :
    h.dataType < 65536 ∧ h.dataType ≠ miCOMPRESSED ∧
      ((st'.cursor = MatFile.alignCursor st.cursor + 4 ∧
          u16At st'.data (MatFile.alignCursor st.cursor + 2) ≠ 0 ∧
          h = ⟨u16At st'.data (MatFile.alignCursor st.cursor),
               u16At st'.data (MatFile.alignCursor st.cursor + 2)⟩ ∧
          1 ≤ h.numberOfBytes ∧ h.numberOfBytes ≤ 65535) ∨
        (st'.cursor = MatFile.alignCursor st.cursor + 8 ∧
          u16At st'.data (MatFile.alignCursor st.cursor + 2) = 0 ∧
          h = ⟨u32At st'.data (MatFile.alignCursor st.cursor),
               u32At st'.data (MatFile.alignCursor st.cursor + 4)⟩ ∧
          u32At st'.data (MatFile.alignCursor st.cursor) < 65536)) ∧
      (65536 ≤ u32At st'.data (MatFile.alignCursor st.cursor) →
        st'.cursor = MatFile.alignCursor st.cursor + 4 ∧
        h.dataType = u16At st'.data (MatFile.alignCursor st.cursor)) := by
  obtain ⟨hne, hrd⟩ := readDataElementHeader_ok inflate fuel st st' h hok
  have hal : MatFile.alignCursor (MatFile.alignCursor st.cursor) = MatFile.alignCursor st.cursor :=
    alignCursor_of_aligned _ (alignCursor_mod st.cursor)
  have h16 := u16At_lt st'.data (MatFile.alignCursor st.cursor)
  have h16' := u16At_lt st'.data (MatFile.alignCursor st.cursor + 2)
  have h32 := u32At_eq st'.data (MatFile.alignCursor st.cursor)
  rcases readHeaderAtCursor_ok hrd with ⟨hp, hh, hst, -⟩ | ⟨hp, hh, hst, -⟩
  · simp only [hal] at hp hh hst
    have hc : st'.cursor = MatFile.alignCursor st.cursor + 4 := by
      have := congrArg MatFile.cursor hst
      simpa using this
    have hdt : h.dataType = u16At st'.data (MatFile.alignCursor st.cursor) := by rw [hh]
    have hnb : h.numberOfBytes = u16At st'.data (MatFile.alignCursor st.cursor + 2) := by
      rw [hh]
    refine ⟨by omega, hne, Or.inl ⟨hc, hp, hh, by omega, by omega⟩, fun _ => ⟨hc, hdt⟩⟩
  · simp only [hal] at hp hh hst
    have hc : st'.cursor = MatFile.alignCursor st.cursor + 8 := by
      have := congrArg MatFile.cursor hst
      simpa using this
    have hdt : h.dataType = u32At st'.data (MatFile.alignCursor st.cursor) := by rw [hh]
    refine ⟨by omega, hne, Or.inr ⟨hc, hp, hh, by omega⟩, fun hbig => ?_⟩
    omega

set_option maxRecDepth 1000000 in
/-- Witness of C20: the name header of `sampleFile`, two 16-bit words read at
offset 168: type 1 and length 1. -/
theorem readDataElementHeader_header_range_witness :
    MatFile.ReadDataElementHeader sampleInflate 1 ⟨sampleFile, 168⟩ =
        .ok (⟨miINT8, 1⟩, ⟨sampleFile, 172⟩) ∧
      (1 : Nat) < 65536 ∧ (1 : Nat) ≠ miCOMPRESSED ∧
      (65536 ≤ u32At sampleFile (MatFile.alignCursor 168) →
        (172 : Nat) = MatFile.alignCursor 168 + 4 ∧
        (1 : Nat) = u16At sampleFile (MatFile.alignCursor 168)) ∧
      65536 ≤ u32At sampleFile (MatFile.alignCursor 168) :=
  have h := readDataElementHeader_header_range sampleInflate 1 ⟨sampleFile, 168⟩
    ⟨sampleFile, 172⟩ ⟨miINT8, 1⟩ (by decide)
  ⟨by decide, h.1, h.2.1, h.2.2.2, by decide⟩

end MatParser
